import Mathlib

/-!
# Sourcerer — formal model of the source registry, playback tracking and
transition state machine

This file is a shallow embedding, in Lean 4, of the Python code in
`scripts/Sourcerer.py`, `scripts/SourcererLite.py` and `scripts/Source.py`
(the TouchDesigner "Sourcerer" component): an ordered registry of named
media sources, an A/B transition state machine with a pending queue, and a
per-buffer playback tracker with loop counting, early-trigger and
follow-action logic.

Modelling conventions:
* Python `int` values are `Int`; frame counters and loop counts are `Int`.
* Python `float` values that the logic compares and multiplies
  (transition times, sample rates, channel values) are modelled as exact
  rationals `Rat`.  (`round(x, 2)` on binary floats is idealised as exact
  rational round-half-to-even.)
* A Python source record is a dict of pages of parameters; the registry
  code only reads and writes the fields modelled below and treats the rest
  opaquely, so the remaining parameters are collapsed into one `payload`
  field.
* Python list indexing `l[i]` (negative wrap-around, `IndexError`),
  `l.insert`, `l.pop` and slices are modelled by explicit functions
  (`pyListGet`, `pyInsert`, `pyPop`, …); `Option` results model a possibly
  raised `IndexError`.
-/

/-- A source record.  `Settings['Name']`, `Settings['Useglobaltransitiontime']`,
`Settings['Transitiontime']`, `Settings['Sourcetype']` and the file-page
parameters read by `Source.py` are explicit; every other page/parameter is
collapsed into `payload`, which none of the modelled operations inspect. -/
structure SourceRec where
  name : String
  sourcetype : String
  file : String
  top : String
  useGlobalTransitionTime : Bool
  transitionTime : Rat
  payload : Nat
  deriving DecidableEq, Repr

/-- Effective index of Python `l[i]`: `i` if `0 ≤ i`, else `len + i`;
`none` when the access would raise `IndexError`. -/
def pyResolveIdx (n : Nat) (i : Int) : Option Nat :=
  if 0 ≤ i ∧ i < (n : Int) then some i.toNat
  else if i < 0 ∧ 0 ≤ (n : Int) + i then some ((n : Int) + i).toNat
  else none

/-- Python `l[i]` for lists: negative indices wrap; out of range raises
(`none`). -/
def pyListGet (l : List α) (i : Int) : Option α := do
  let j ← pyResolveIdx l.length i
  l.get? j

/-- The insertion point of Python `l.insert(i, x)`: `i` clamped to
`[0, len]` after negative wrap-around. -/
def pyInsertIdx (n : Nat) (i : Int) : Nat :=
  if i < 0 then (max 0 ((n : Int) + i)).toNat else min i.toNat n

/-- Python `l.insert(i, x)`; never raises. -/
def pyInsert (l : List α) (i : Int) (x : α) : List α :=
  l.insertIdx (pyInsertIdx l.length i) x

/-- Python `l.pop(i)`: returns the removed element and the remaining list,
or `none` for `IndexError`. -/
def pyPop (l : List α) (i : Int) : Option (α × List α) := do
  let j ← pyResolveIdx l.length i
  let x ← l.get? j
  pure (x, l.eraseIdx j)

/-- Python slice index clamping (`l[:i]` / `l[i:]`): negative wraps, then
clamps into `[0, len]`. -/
def pySliceIdx (n : Nat) (i : Int) : Nat :=
  let j : Int := if i < 0 then (n : Int) + i else i
  if j < 0 then 0 else min j.toNat n

/-! ## Decimal numerals

`f"{base} {i}"` in `_getUniqueName` renders the counter with Python's
decimal `str`; the embedding uses Lean's `Nat.repr`, which produces the
same decimal string.  The termination bound for the renaming loop needs
injectivity of `Nat.repr`, proved here by a round-trip through a decimal
parser. -/
/-- Numeric value of a decimal digit character. -/
def digitVal (c : Char) : Nat := c.toNat - 48

/-- Parse a list of decimal digit characters, most significant first. -/
def parseDecimal (a : Nat) (l : List Char) : Nat :=
  l.foldl (fun a c => 10 * a + digitVal c) a

/-! ## Unique-name resolution (`_getUniqueName` / `_checkUniqueName`)

`Sourcerer._getUniqueName(name, exclude_index)` collects the names of all
records except the excluded index; if `name` is taken it strips trailing
digits and spaces and appends `" i"` for the first counter `i ≥ 1` that is
free.  The Python `while` loop is embedded with fuel `len(names) + 1`,
which is proved sufficient below. -/
/-- `name.rstrip('0123456789 ')`: drop decimal digits and spaces from the
right end (spelled on the character list, which also evaluates in the
kernel). -/
def stripNameSuffix (name : String) : String :=
  ⟨(name.data.reverse.dropWhile (fun c => c.isDigit || c == ' ')).reverse⟩

/-- `f"{base} {i}"`. -/
def candidateName (base : String) (i : Nat) : String :=
  base ++ " " ++ Nat.repr i

/-- The `while f"{base} {i}" in names: i += 1` loop of `_getUniqueName`,
with explicit fuel. -/
def findSuffix (names : List String) (base : String) : Nat → Nat → Nat
  | 0, i => i
  | fuel + 1, i =>
    if candidateName base i ∈ names then findSuffix names base fuel (i + 1) else i

/-- `_getUniqueName`, as a function of the list of names it may collide
with (the caller builds that list, excluding an index where relevant). -/
def getUniqueName (names : List String) (name : String) : String :=
  if name ∈ names then
    let base := stripNameSuffix name
    candidateName base (findSuffix names base (names.length + 1) 1)
  else name

/-! ## The source registry (`Sourcerer.py`)

`Registry` models the persistent state the registry operations touch:
`stored['Sources']`, `stored['SelectedSource']` and `stored['ActiveSource']`
(each an `{index, name}` pair).  Safety-mode prompts, logging and UI
component updates have no effect on this state and are omitted. -/
structure Registry where
  sources : List SourceRec
  selectedIndex : Int
  selectedName : String
  activeIndex : Int
  activeName : String
  deriving DecidableEq, Repr

/-- The name list `[s['Settings']['Name'] for i, s in enumerate(sources)
if i != exclude_index]` built by `_getUniqueName`.  A `None` exclude index
(or a negative one) excludes nothing, exactly as the Python comparison
`i != exclude_index` over `enumerate` indices. -/
def namesExcluding (sources : List SourceRec) (excludeIndex : Option Int) : List String :=
  (sources.enum.filter (fun p =>
    match excludeIndex with
    | none => true
    | some e => decide ((p.1 : Int) ≠ e))).map (fun p => p.2.name)

/-- `_checkUniqueName` applied to a record that is not (yet) in the list:
`AddSource`, `CopySource` and `PasteSourceData` call it with
`exclude_index=None` before inserting. -/
def checkUniqueNameNew (sources : List SourceRec) (s : SourceRec) : SourceRec :=
  { s with name := getUniqueName (namesExcluding sources none) s.name }

/-- `_checkUniqueName(self.stored['Sources'][i], exclude_index=i)` as used
by the `Import` loops: the record at Python index `i` is renamed in place.
`none` models the `IndexError` raised when `i` is out of range. -/
def checkUniqueNameAt (sources : List SourceRec) (i : Int) : Option (List SourceRec) := do
  let j ← pyResolveIdx sources.length i
  let s ← sources.get? j
  pure (sources.set j
    { s with name := getUniqueName (namesExcluding sources (some i)) s.name })

/-- `SelectSource(index)`: an index past the end is decremented once (not
clamped); the stored name is looked up only for an in-range index. -/
def selectSource (r : Registry) (index : Int) : Registry :=
  let idx := if index > (r.sources.length : Int) - 1 then index - 1 else index
  let nm := if 0 ≤ idx ∧ idx < (r.sources.length : Int) then
      (((r.sources.get? idx.toNat).map (fun s => s.name)).getD "")
    else ""
  { r with selectedIndex := idx, selectedName := nm }

/-- `SelectSourceUp`. -/
def selectSourceUp (r : Registry) : Registry :=
  if r.selectedIndex > 0 then selectSource r (r.selectedIndex - 1) else r

/-- `SelectSourceDown`. -/
def selectSourceDown (r : Registry) : Registry :=
  if r.selectedIndex < (r.sources.length : Int) - 1 then
    selectSource r (r.selectedIndex + 1)
  else r

/-- The `source_data is None` branch of `_addSource`: build a record from
the `defaultSource` template, optionally setting type, path and name
(`'new_source'` when no name is given). -/
def buildAddedSource (template : SourceRec)
    (source_type source_path source_name : Option String) : SourceRec :=
  let s := template
  let s :=
    match source_type with
    | some "file" => { s with sourcetype := "file", file := source_path.getD s.file }
    | some "top" => { s with sourcetype := "top", top := source_path.getD s.top }
    | _ => s
  { s with name := source_name.getD "new_source" }

/-- `_addSource` (the body of `AddSource` once the safety prompt is
passed): uniquify the record's name against all current names, insert at
`selected + 1` (at `0` for an empty list), then select the new record. -/
def addSource (r : Registry) (source_data : Option SourceRec)
    (source_type source_path source_name : Option String)
    (template : SourceRec) : Registry :=
  let s := r.selectedIndex
  let data :=
    match source_data with
    | some d => d
    | none => buildAddedSource template source_type source_path source_name
  let data := checkUniqueNameNew r.sources data
  let insertIndex : Int := if r.sources ≠ [] then s + 1 else 0
  let sources := pyInsert r.sources insertIndex data
  selectSource { r with sources := sources } insertIndex

/-- `CopySource`: deep-copy the selected record, uniquify its name,
insert the copy at the selected position and select it.  `none` models the
`IndexError` when the selected index is invalid. -/
def copySource (r : Registry) : Option Registry := do
  let s := r.selectedIndex
  let src ← pyListGet r.sources s
  let src := checkUniqueNameNew r.sources src
  let sources := pyInsert r.sources s src
  pure (selectSource { r with sources := sources } s)

/-- `PasteSourceData(index, data)`: deep-copy `data`, uniquify its name,
insert after `index` and select the new record; a `None` clipboard is a
no-op. -/
def pasteSourceData (r : Registry) (index : Int) (data : Option SourceRec) : Registry :=
  match data with
  | none => r
  | some d =>
    let d := checkUniqueNameNew r.sources d
    let sources := pyInsert r.sources (index + 1) d
    selectSource { r with sources := sources } (index + 1)

/-- `RenameSource(index, new_name)`: out-of-range indices are a no-op; the
new name is uniquified excluding `index` itself, and the selected/active
name mirrors follow when they point at `index`. -/
def renameSource (r : Registry) (index : Int) (newName : String) : Registry :=
  if 0 ≤ index ∧ index < (r.sources.length : Int) then
    let nm := getUniqueName (namesExcluding r.sources (some index)) newName
    let sources :=
      match r.sources.get? index.toNat with
      | some s => r.sources.set index.toNat { s with name := nm }
      | none => r.sources
    let selName := if r.selectedIndex = index then nm else r.selectedName
    let actName := if r.activeIndex = index then nm else r.activeName
    { r with sources := sources, selectedName := selName, activeName := actName }
  else r

/-- `DeleteSource`: refuses (no-op) when only one record remains;
otherwise pops the selected record, degrades ActiveIndex to `-1` if the
active record was deleted or decrements it if it sat after the deletion
point, and re-selects at the deletion point (clamped to the new end). -/
def deleteSource (r : Registry) : Option Registry := do
  let s := r.selectedIndex
  if r.sources.length ≤ 1 then
    pure r
  else do
    let (_, sources) ← pyPop r.sources s
    let isActive := r.activeIndex = s
    let ai := if isActive then (-1 : Int)
      else if r.activeIndex > s then r.activeIndex - 1 else r.activeIndex
    let an := if isActive then "" else r.activeName
    let r' := { r with sources := sources, activeIndex := ai, activeName := an }
    if s ≥ (sources.length : Int) then
      pure (selectSource r' ((sources.length : Int) - 1))
    else
      pure (selectSource r' s)

/-- `MoveSource(from_index, to_index)`: pop-then-insert with `to` clamped
to `[0, len]`; ActiveIndex follows the moved record or shifts when the
move crosses it; the selection is retargeted to the moved record. -/
def moveSource (r : Registry) (fromIndex toIndex : Int) : Registry :=
  if fromIndex < 0 ∨ fromIndex ≥ (r.sources.length : Int) then r
  else
    let toIndex := max 0 (min toIndex (r.sources.length : Int))
    let activeIndex := r.activeIndex
    let movingActive := fromIndex = activeIndex
    match pyPop r.sources fromIndex with
    | none => r
    | some (src, rest) =>
      let toIndex := if fromIndex < toIndex then toIndex - 1 else toIndex
      let sources := pyInsert rest toIndex src
      let ai :=
        if movingActive then toIndex
        else if 0 ≤ activeIndex then
          if fromIndex < activeIndex ∧ activeIndex ≤ toIndex then activeIndex - 1
          else if toIndex ≤ activeIndex ∧ activeIndex < fromIndex then activeIndex + 1
          else activeIndex
        else activeIndex
      { r with sources := sources, activeIndex := ai,
               selectedIndex := toIndex, selectedName := src.name }

/-- `MoveSourceUp`: pops the selected record and reinserts it one slot up,
then moves the selection up.  ActiveIndex is not touched. -/
def moveSourceUp (r : Registry) : Option Registry := do
  let s := r.selectedIndex
  if s > 0 then do
    let (src, rest) ← pyPop r.sources s
    let sources := pyInsert rest (s - 1) src
    pure (selectSourceUp { r with sources := sources })
  else
    pure r

/-- `MoveSourceDown`: pops the selected record and reinserts it one slot
down, then moves the selection down.  ActiveIndex is not touched. -/
def moveSourceDown (r : Registry) : Option Registry := do
  let s := r.selectedIndex
  if s < (r.sources.length : Int) - 1 then do
    let (src, rest) ← pyPop r.sources s
    let sources := pyInsert rest (s + 1) src
    pure (selectSourceDown { r with sources := sources })
  else
    pure r

/-! ## Import (`Sourcerer.Import`)

The file dialog and JSON decoding are collaborator concerns; the state
effect is: splice the imported records at a mode-dependent position, then
run `_checkUniqueName(sources[i], exclude_index=i)` over the range of
Python indices where they were placed. -/
/-- The three insertion locations of the import dialog. -/
inductive ImportMode
  | prepend
  | insertAboveSelected
  | append
  deriving DecidableEq, Repr

/-- Python `range(a, b)` over `int`. -/
def intRange (a b : Int) : List Int :=
  (List.range (b - a).toNat).map (fun (k : Nat) => a + (k : Int))

/-- The `for i in range(...): self._checkUniqueName(sources[i], exclude_index=i)`
loop; `none` when some iteration raises `IndexError`. -/
def checkUniqueLoop (sources : List SourceRec) : List Int → Option (List SourceRec)
  | [] => some sources
  | i :: rest => do
    let sources' ← checkUniqueNameAt sources i
    checkUniqueLoop sources' rest

/-- `Import` (state effect only; empty import is a no-op). -/
def importSources (r : Registry) (mode : ImportMode) (imported : List SourceRec) :
    Option Registry :=
  if imported.isEmpty then some r
  else
    match mode with
    | ImportMode.prepend => do
        let newSources := imported ++ r.sources
        let final ← checkUniqueLoop newSources (intRange 0 imported.length)
        pure { r with sources := final }
    | ImportMode.insertAboveSelected => do
        let s := r.selectedIndex
        let k := pySliceIdx r.sources.length s
        let newSources := r.sources.take k ++ imported ++ r.sources.drop k
        let final ← checkUniqueLoop newSources (intRange s (s + imported.length))
        pure { r with sources := final }
    | ImportMode.append => do
        let newSources := r.sources ++ imported
        let final ← checkUniqueLoop newSources
          (intRange r.sources.length (r.sources.length + imported.length))
        pure { r with sources := final }

/-! ## Lookup (`_getSource`) and the transition state machine (`Take`) -/
/-- A switch request: `Take`/`_getSource` accept an index, a name, or a
literal record dict (an ephemeral source, reported with index `-1`). -/
inductive SourceRef
  | byIndex (i : Int)
  | byName (n : String)
  | byData (d : SourceRec)
  deriving DecidableEq, Repr

/-- The `(source_data, index, name)` triple returned by `_getSource`. -/
structure LookupResult where
  sourceData : Option SourceRec
  index : Option Int
  name : Option String
  deriving DecidableEq, Repr

/-- `_getSource(source)`: dicts pass through with index `-1`; names are
looked up by first occurrence; an integer is accepted whenever
`source <= len - 1`, so negative integers reach `sources[s]` and follow
Python wrap-around (raising `IndexError`, modelled as `none`, below
`-len`).  Only `i ≥ len` produces the "not found" triple. -/
def getSource (sources : List SourceRec) (ref : SourceRef) : Option LookupResult :=
  match ref with
  | SourceRef.byData d =>
      some ⟨some d, some (-1), some d.name⟩
  | SourceRef.byName n =>
      let sourceNames := sources.map (fun s => s.name)
      if n ∈ sourceNames then
        let s := sourceNames.indexOf n
        some ⟨sources.get? s, some (s : Int), some n⟩
      else
        some ⟨none, none, none⟩
  | SourceRef.byIndex i =>
      if i ≤ (sources.length : Int) - 1 then
        match pyListGet sources i with
        | some d => some ⟨some d, some i, some d.name⟩
        | none => none
      else
        some ⟨none, some i, none⟩

/-- Transition state machine phase. -/
inductive Phase
  | idle
  | transitioning
  deriving DecidableEq, Repr

/-- The Sourcerer-level state that `Take`/`_beginTransition`/
`OnTransitionComplete` read and write: phase, pending queue, the registry
record list, the A/B flip (`stored['State']`) and the active-source
mirror. -/
structure Machine where
  phase : Phase
  pendingQueue : List SourceRef
  sources : List SourceRec
  state : Int
  activeIndex : Int
  activeName : String
  deriving DecidableEq, Repr

/-- `_beginTransition`: set phase Transitioning, resolve the ref; on
failure fall back to Idle with no other effect; on success flip the A/B
state and update the active-source mirror.  (Preparing the incoming
source component, configuring the transition renderer and firing
callbacks act on collaborators only.)  The `getD` fallbacks are dead
code: a successful lookup always carries an index and a name. -/
def beginTransition (m : Machine) (source : SourceRef) : Option Machine := do
  let m := { m with phase := Phase.transitioning }
  let res ← getSource m.sources source
  match res.sourceData with
  | none => pure { m with phase := Phase.idle }
  | some _ =>
      let nextState : Int := 1 - m.state
      pure { m with state := nextState,
                    activeIndex := res.index.getD m.activeIndex,
                    activeName := res.name.getD m.activeName }

/-- `Take(source, force)`: `force` clears the queue and begins at once;
otherwise begin when Idle; when Transitioning either append to the queue
(unless its tail already equals the request) or, with queueing disabled,
begin at once. -/
def take (m : Machine) (source : SourceRef) (force queueEnabled : Bool) : Option Machine :=
  if force then
    beginTransition { m with pendingQueue := [] } source
  else if m.phase = Phase.transitioning then
    if queueEnabled then
      if m.pendingQueue = [] ∨ m.pendingQueue.getLast? ≠ some source then
        some { m with pendingQueue := m.pendingQueue ++ [source] }
      else
        some m
    else
      beginTransition m source
  else
    beginTransition m source

/-- `ClearPendingQueue`. -/
def clearPendingQueue (m : Machine) : Machine :=
  { m with pendingQueue := [] }

/-- `SkipToLastPending`: with two or more pending requests, keep only the
last; otherwise do nothing. -/
def skipToLastPending (m : Machine) : Machine :=
  if m.pendingQueue.length > 1 then
    match m.pendingQueue.getLast? with
    | some last => { m with pendingQueue := [last] }
    | none => { m with pendingQueue := [] }
  else m

/-- `OnTransitionComplete`: back to Idle, then pop and `Take` the queue
head if any. -/
def onTransitionComplete (m : Machine) (queueEnabled : Bool) : Option Machine :=
  let m := { m with phase := Phase.idle }
  match m.pendingQueue with
  | [] => some m
  | next :: rest => take { m with pendingQueue := rest } next false queueEnabled

/-! ## Per-buffer playback tracking (`Source.py`)

`SourcePars` models the parameters of one source component that the done
logic reads; `PlaybackState` models its internal counters.  The
`is_active_playback` gate combines `par.Active` with "this comp is
`source0`/`source1` and its digit equals `SOURCERER.State`"; the latter,
cross-component half is the `isLive` argument. -/
structure SourcePars where
  sourcetype : String
  doneonfile : String
  doneontop : String
  playntimes : Int
  followactionfile : String
  followactiontop : String
  gotoindexfile : Int
  gotoindextop : Int
  gotonamefile : String
  gotonametop : String
  timertimefile : Rat
  timertimetop : Rat
  index : Int
  active : Bool
  deriving DecidableEq, Repr

structure PlaybackState where
  doneTriggered : Bool
  currentFrame : Int
  totalFrames : Int
  sampleRate : Rat
  lastFrameState : Rat
  loopCount : Int
  loopsRemaining : Int
  timerProgress : Rat
  timerLengthSeconds : Rat
  timerTimeRemaining : Rat
  deriving DecidableEq, Repr

/-- Python `int()` on a nonneg-or-neg rational: truncation toward zero. -/
def pyInt (q : Rat) : Int :=
  if q < 0 then -(Int.floor (-q)) else Int.floor q

/-- `Start()`: reset the latch, the edge state, the counters and the
timers; `loopsRemaining = max(0, playNTimes - 1)`; in timer mode the timer
length is re-read from the relevant parameter. -/
def startPlayback (pars : SourcePars) (st : PlaybackState) : PlaybackState :=
  let st := { st with doneTriggered := false, lastFrameState := 0, currentFrame := 0,
                      timerProgress := 0, timerTimeRemaining := st.timerLengthSeconds,
                      loopCount := 0,
                      loopsRemaining := max 0 (pars.playntimes - 1) }
  if pars.sourcetype = "file" ∧ pars.doneonfile = "timer" then
    { st with timerLengthSeconds := pars.timertimefile,
              timerTimeRemaining := pars.timertimefile }
  else if pars.sourcetype = "top" ∧ pars.doneontop = "timer" then
    { st with timerLengthSeconds := pars.timertimetop,
              timerTimeRemaining := pars.timertimetop }
  else st

/-- `_getTransitionTimeForFollowAction`: resolve the follow-action target
and return its effective transition time (the global time when the target
opts in); `0.0` when there is no target.  `none` models a raised
`IndexError` (possible only for `play_next` with `Index < -len - 1`). -/
def getTransitionTimeForFollowAction (pars : SourcePars) (sources : List SourceRec)
    (globalTransitionTime : Rat) : Option Rat :=
  let follow := pars.followactionfile
  if follow = "none" then some 0
  else
    let target? : Option (Option SourceRec) :=
      if follow = "play_next" then
        let nextIndex := pars.index + 1
        if nextIndex < (sources.length : Int) then
          match pyListGet sources nextIndex with
          | some t => some (some t)
          | none => none
        else some none
      else if follow = "goto_index" then
        if 0 ≤ pars.gotoindexfile ∧ pars.gotoindexfile < (sources.length : Int) then
          some (pyListGet sources pars.gotoindexfile)
        else some none
      else if follow = "goto_name" then
        match getSource sources (SourceRef.byName pars.gotonamefile) with
        | some res => some res.sourceData
        | none => none
      else some none
    match target? with
    | none => none
    | some none => some 0
    | some (some t) =>
        some (if t.useGlobalTransitionTime then globalTransitionTime else t.transitionTime)

/-- `_handleFollowAction`: gated on source type, `par.Active` and the
live-buffer check; returns the switch request it issues (`none` when
gated out or the follow action is `none`).  `play_next` targets
`SOURCERER.activeIndex + 1`. -/
def handleFollowAction (pars : SourcePars) (activeIndex : Int) (isLive : Bool) :
    Option SourceRef :=
  let followAction? : Option String :=
    if pars.sourcetype = "file" then some pars.followactionfile
    else if pars.sourcetype = "top" then some pars.followactiontop
    else none
  match followAction? with
  | none => none
  | some fa =>
      if pars.active ∧ isLive then
        if fa = "play_next" then some (SourceRef.byIndex (activeIndex + 1))
        else if fa = "goto_index" then
          some (SourceRef.byIndex
            (if pars.sourcetype = "file" then pars.gotoindexfile else pars.gotoindextop))
        else if fa = "goto_name" then
          some (SourceRef.byName
            (if pars.sourcetype = "file" then pars.gotonamefile else pars.gotonametop))
        else none
      else none

/-- Telemetry channels of the file-info CHOP (`open` is `openChan`). -/
inductive FileChannel
  | trueLength
  | length
  | lastFrame
  | idx
  | sampleRate
  | openChan
  | preloading
  deriving DecidableEq, Repr

/-- `onFileValueChange(channel, val)`: the per-event state update, paired
with a flag recording whether this event invoked `_handleFollowAction`
(the done edge).  `movieNumImages`/`movieRate` are the collaborator
`moviefilein` readbacks used by the `open`/`preloading` branch; `none`
models an uncaught `IndexError` from the follow-action lookup. -/
def onFileValueChange (pars : SourcePars) (sources : List SourceRec)
    (globalTransitionTime : Rat) (movieNumImages : Int) (movieRate : Rat)
    (isLive : Bool) (st : PlaybackState) (ch : FileChannel) (val : Rat) :
    Option (PlaybackState × Bool) :=
  if ch = FileChannel.openChan ∨ ch = FileChannel.preloading then
    if val = 1 then
      some ({ st with totalFrames := movieNumImages,
                      sampleRate := if movieRate > 0 then movieRate else 30 }, false)
    else some (st, false)
  else if ¬(pars.active ∧ isLive) then
    some (st, false)
  else
    match ch with
    | FileChannel.idx =>
        let st := { st with currentFrame := pyInt val }
        if pars.doneonfile ≠ "play_n_times" then some (st, false)
        else if st.doneTriggered then some (st, false)
        else
          match getTransitionTimeForFollowAction pars sources globalTransitionTime with
          | none => none
          | some transitionTime =>
              if transitionTime ≤ 0 then some (st, false)
              else
                let transitionFrames := transitionTime * st.sampleRate
                let framesRemaining : Int := max 0 (st.totalFrames - 1 - st.currentFrame)
                let isFinalLoop := st.loopCount ≥ pars.playntimes - 1
                if isFinalLoop ∧ framesRemaining > 0 ∧
                    (framesRemaining : Rat) ≤ transitionFrames then
                  some ({ st with doneTriggered := true }, true)
                else some (st, false)
    | FileChannel.length => some ({ st with totalFrames := pyInt val }, false)
    | FileChannel.sampleRate =>
        some ({ st with sampleRate := if val > 0 then val else 30 }, false)
    | FileChannel.lastFrame =>
        if val = 1 ∧ st.lastFrameState = 0 then
          let lc := st.loopCount + 1
          let lr := max 0 (pars.playntimes - lc)
          let st := { st with loopCount := lc, loopsRemaining := lr }
          if pars.doneonfile = "play_n_times" ∧ ¬st.doneTriggered ∧
              lc ≥ pars.playntimes then
            some ({ st with doneTriggered := true, lastFrameState := val }, true)
          else
            some ({ st with lastFrameState := val }, false)
        else
          some ({ st with lastFrameState := val }, false)
    | _ => some (st, false)

/-- `onDoneTimerDone`: invokes `_handleFollowAction` unconditionally — it
neither checks nor sets the `doneTriggered` latch. -/
def onDoneTimerDone (pars : SourcePars) (activeIndex : Int) (isLive : Bool) :
    Option SourceRef :=
  handleFollowAction pars activeIndex isLive

/-- `pulse_Donepulsefile` (the external "done now" pulse): also invokes
`_handleFollowAction` unconditionally. -/
def pulseDonePulseFile (pars : SourcePars) (activeIndex : Int) (isLive : Bool) :
    Option SourceRef :=
  handleFollowAction pars activeIndex isLive

/-! ## Display values (`_updateFileDisplay`) -/
/-- Round-half-to-even on rationals (idealising Python `round`). -/
def roundHalfEven (q : Rat) : Int :=
  let f := Int.floor q
  let r := q - f
  if r < 1 / 2 then f
  else if r > 1 / 2 then f + 1
  else if Even f then f else f + 1

/-- Python `round(x, 2)`. -/
def pyRound2 (q : Rat) : Rat := (roundHalfEven (q * 100) : Rat) / 100

/-- The `done_on == 'play_n_times'` progress computation of
`_updateFileDisplay`, before display rounding: total progress across all
loops, with the degenerate `total <= 1` cases special-cased (100 for a
single total frame, 0 otherwise).  No clamping is applied. -/
def fileProgressPct (pars : SourcePars) (st : PlaybackState) : Rat :=
  let totalFramesAllLoops := st.totalFrames * pars.playntimes
  let framesCompleted := st.loopCount * st.totalFrames + st.currentFrame
  if totalFramesAllLoops > 1 then
    ((framesCompleted : Rat) / ((totalFramesAllLoops : Rat) - 1)) * 100
  else if totalFramesAllLoops = 1 then 100
  else 0

/-- `self.Progress = round(progress_pct, 2)` in play-n-times mode. -/
def fileProgressDisplayed (pars : SourcePars) (st : PlaybackState) : Rat :=
  pyRound2 (fileProgressPct pars st)

/-! ## Name lists and uniqueness invariant -/
/-- The list of record names, in registry order. -/
def namesOf (l : List SourceRec) : List String := l.map (fun s => s.name)

/-- The §3/§8 uniqueness invariant: no two records share a name. -/
def nodupNames (l : List SourceRec) : Prop := (namesOf l).Nodup

instance (l : List SourceRec) : Decidable (nodupNames l) := by
  unfold nodupNames; infer_instance

/-! ## Operation sequences over the registry (for the uniqueness claim) -/
/-- One registry mutation from the claim's operation set. -/
inductive RegOp
  | add (sd : Option SourceRec) (st sp sn : Option String) (tpl : SourceRec)
  | rename (i : Int) (nm : String)
  | paste (i : Int) (d : Option SourceRec)
  | imp (mode : ImportMode) (recs : List SourceRec)

/-- Apply one operation (`none` = the operation raised). -/
def applyRegOp (r : Registry) : RegOp → Option Registry
  | RegOp.add sd st sp sn tpl => some (addSource r sd st sp sn tpl)
  | RegOp.rename i nm => some (renameSource r i nm)
  | RegOp.paste i d => some (pasteSourceData r i d)
  | RegOp.imp mode recs => importSources r mode recs

/-- Apply a sequence of operations. -/
def applyRegOps (r : Registry) : List RegOp → Option Registry
  | [] => some r
  | op :: ops => (applyRegOp r op).bind (fun r' => applyRegOps r' ops)

/-- Side condition under which `Import` (insert-above-selected mode) checks
exactly the spliced-in records: the selection index must sit in `[0, len]`
at that moment.  All other operations need nothing. -/
def importInsertOk (r : Registry) : RegOp → Prop
  | RegOp.imp ImportMode.insertAboveSelected _ =>
      0 ≤ r.selectedIndex ∧ r.selectedIndex ≤ (r.sources.length : Int)
  | _ => True

/-- The side condition holds at every step of a run. -/
def runOk (r : Registry) : List RegOp → Prop
  | [] => True
  | op :: ops => importInsertOk r op ∧
      ∀ r', applyRegOp r op = some r' → runOk r' ops

/-- Folding a stream of `last_frame` telemetry values through
`onFileValueChange`, counting how many events invoked the follow action. -/
def runLastFrames (pars : SourcePars) (sources : List SourceRec) (gtt : Rat)
    (ni : Int) (mr : Rat) (isLive : Bool) :
    PlaybackState → List Rat → PlaybackState × Nat
  | st, [] => (st, 0)
  | st, v :: vs =>
    match onFileValueChange pars sources gtt ni mr isLive st FileChannel.lastFrame v with
    | some (st2, fired) =>
      let rest := runLastFrames pars sources gtt ni mr isLive st2 vs
      (rest.1, (if fired then 1 else 0) + rest.2)
    | none => (st, 0)

/-- Rising edges (value 1.0 preceded by stored state 0) in a value stream. -/
def countRisingEdges (prev : Rat) : List Rat → Nat
  | [] => 0
  | v :: vs => (if v = 1 ∧ prev = 0 then 1 else 0) + countRisingEdges v vs

/-! ## Concrete instances used by the claim witnesses and counterexamples -/
/-- A file-source record with the given name and neutral remaining fields. -/
def mkRec (nm : String) : SourceRec :=
  { name := nm, sourcetype := "file", file := "", top := "",
    useGlobalTransitionTime := false, transitionTime := 0, payload := 0 }

def recT1 : SourceRec :=
  { name := "T", sourcetype := "file", file := "", top := "",
    useGlobalTransitionTime := false, transitionTime := 1, payload := 0 }

def parsC1 : SourcePars :=
  { sourcetype := "file", doneonfile := "play_n_times", doneontop := "",
    playntimes := 1, followactionfile := "goto_index", followactiontop := "",
    gotoindexfile := 0, gotoindextop := 0, gotonamefile := "", gotonametop := "",
    timertimefile := 0, timertimetop := 0, index := 0, active := true }

def stC1 : PlaybackState :=
  { doneTriggered := false, currentFrame := 0, totalFrames := 100, sampleRate := 30,
    lastFrameState := 0, loopCount := 0, loopsRemaining := 0, timerProgress := 0,
    timerLengthSeconds := 0, timerTimeRemaining := 0 }

def rC2out : Registry :=
  { sources := [mkRec "A", { mkRec "A" with name := "A 1" }],
    selectedIndex := 1, selectedName := "A 1", activeIndex := 0, activeName := "A" }

def rC3d : Registry :=
  { sources := [mkRec "A", mkRec "B", mkRec "C"], selectedIndex := 0,
    selectedName := "A", activeIndex := 1, activeName := "B" }

def rC3dOut : Registry :=
  { sources := [mkRec "B", mkRec "C"], selectedIndex := 0, selectedName := "B",
    activeIndex := 0, activeName := "B" }

def rC3cx : Registry :=
  { sources := [mkRec "A", mkRec "B"], selectedIndex := 1, selectedName := "B",
    activeIndex := 1, activeName := "B" }

def rC3cxOut : Registry :=
  { sources := [mkRec "B", mkRec "A"], selectedIndex := 0, selectedName := "B",
    activeIndex := 1, activeName := "B" }

def rC4 : Registry :=
  { sources := [mkRec "A"], selectedIndex := 0, selectedName := "A",
    activeIndex := 0, activeName := "A" }

def rC4out : Registry :=
  { sources := [{ mkRec "A" with name := "A 1" }, mkRec "A"],
    selectedIndex := 0, selectedName := "A 1", activeIndex := 0, activeName := "A" }

def rC4cx : Registry :=
  { sources := [mkRec "A", mkRec "B"], selectedIndex := 0, selectedName := "A",
    activeIndex := 1, activeName := "B" }

def mC5 : Machine :=
  { phase := Phase.transitioning, pendingQueue := [SourceRef.byIndex 0],
    sources := [], state := 0, activeIndex := -1, activeName := "" }

def parsC6 : SourcePars :=
  { sourcetype := "file", doneonfile := "play_n_times", doneontop := "",
    playntimes := 2, followactionfile := "none", followactiontop := "",
    gotoindexfile := 0, gotoindextop := 0, gotonamefile := "", gotonametop := "",
    timertimefile := 0, timertimetop := 0, index := 0, active := true }

def stC6 : PlaybackState :=
  { doneTriggered := false, currentFrame := 50, totalFrames := 100, sampleRate := 30,
    lastFrameState := 0, loopCount := 1, loopsRemaining := 1, timerProgress := 0,
    timerLengthSeconds := 0, timerTimeRemaining := 0 }

def parsC6cx : SourcePars :=
  { sourcetype := "file", doneonfile := "play_n_times", doneontop := "",
    playntimes := 1, followactionfile := "none", followactiontop := "",
    gotoindexfile := 0, gotoindextop := 0, gotonamefile := "", gotonametop := "",
    timertimefile := 0, timertimetop := 0, index := 0, active := true }

def stC6cx : PlaybackState :=
  { doneTriggered := false, currentFrame := 99, totalFrames := 100, sampleRate := 30,
    lastFrameState := 0, loopCount := 1, loopsRemaining := 0, timerProgress := 0,
    timerLengthSeconds := 0, timerTimeRemaining := 0 }

def parsC8 : SourcePars :=
  { sourcetype := "file", doneonfile := "play_n_times", doneontop := "",
    playntimes := 1, followactionfile := "play_next", followactiontop := "",
    gotoindexfile := 0, gotoindextop := 0, gotonamefile := "", gotonametop := "",
    timertimefile := 0, timertimetop := 0, index := 0, active := true }

def stC8 : PlaybackState :=
  { doneTriggered := true, currentFrame := 0, totalFrames := 100, sampleRate := 30,
    lastFrameState := 0, loopCount := 1, loopsRemaining := 0, timerProgress := 0,
    timerLengthSeconds := 0, timerTimeRemaining := 0 }

def stC8out : PlaybackState :=
  { stC8 with lastFrameState := 1, loopCount := 2, loopsRemaining := 0 }

def parsC9 : SourcePars :=
  { sourcetype := "file", doneonfile := "play_n_times", doneontop := "",
    playntimes := 3, followactionfile := "none", followactiontop := "",
    gotoindexfile := 0, gotoindextop := 0, gotonamefile := "", gotonametop := "",
    timertimefile := 0, timertimetop := 0, index := 0, active := true }

def stC9 : PlaybackState :=
  { doneTriggered := false, currentFrame := 0, totalFrames := 100, sampleRate := 30,
    lastFrameState := 0, loopCount := 0, loopsRemaining := 2, timerProgress := 0,
    timerLengthSeconds := 0, timerTimeRemaining := 0 }

def mC10 : Machine :=
  { phase := Phase.transitioning,
    pendingQueue := [SourceRef.byIndex 0, SourceRef.byIndex 1, SourceRef.byIndex 2],
    sources := [], state := 0, activeIndex := -1, activeName := "" }


theorem parseDecimal_append (a : Nat) (l₁ l₂ : List Char) :
    parseDecimal a (l₁ ++ l₂) = parseDecimal (parseDecimal a l₁) l₂ :=
  List.foldl_append ..

theorem digitVal_digitChar {n : Nat} (h : n < 10) :
    digitVal (Nat.digitChar n) = n := by
  interval_cases n <;> rfl

theorem toDigitsCore_eq_append (b : Nat) :
    ∀ (fuel n : Nat) (ds : List Char),
      Nat.toDigitsCore b fuel n ds = Nat.toDigitsCore b fuel n [] ++ ds := by
  intro fuel
  induction fuel with
  | zero => intro n ds; simp [Nat.toDigitsCore]
  | succ fuel ih =>
    intro n ds
    simp only [Nat.toDigitsCore]
    by_cases h : n / b = 0
    · simp [h]
    · simp only [h, if_false]
      rw [ih (n / b) [Nat.digitChar (n % b)], ih (n / b) (Nat.digitChar (n % b) :: ds)]
      simp

theorem parseDecimal_toDigitsCore :
    ∀ (fuel n a : Nat), n < fuel →
      parseDecimal a (Nat.toDigitsCore 10 fuel n []) = 10 ^ (Nat.toDigitsCore 10 fuel n []).length * a + n := by
  intro fuel
  induction fuel with
  | zero => omega
  | succ fuel ih =>
    intro n a hn
    simp only [Nat.toDigitsCore]
    by_cases h : n / 10 = 0
    · have hd : digitVal (Nat.digitChar (n % 10)) = n % 10 :=
        digitVal_digitChar (by omega)
      simp [h, parseDecimal, hd]
      omega
    · simp only [h, if_false]
      rw [toDigitsCore_eq_append 10 fuel (n / 10) [Nat.digitChar (n % 10)]]
      have hlt : n / 10 < fuel := by omega
      rw [parseDecimal_append, ih (n / 10) a hlt]
      simp only [List.length_append, List.length_cons, List.length_nil]
      have : parseDecimal (10 ^ (Nat.toDigitsCore 10 fuel (n / 10) []).length * a + n / 10)
          [Nat.digitChar (n % 10)]
          = 10 * (10 ^ (Nat.toDigitsCore 10 fuel (n / 10) []).length * a + n / 10)
            + n % 10 := by
        simp [parseDecimal, digitVal_digitChar (show n % 10 < 10 by omega)]
      rw [this]
      have hdm : 10 * (n / 10) + n % 10 = n := Nat.div_add_mod n 10
      ring_nf
      omega

theorem parseDecimal_repr (n : Nat) : parseDecimal 0 (Nat.repr n).data = n := by
  have : (Nat.repr n).data = Nat.toDigitsCore 10 (n + 1) n [] := rfl
  rw [this, parseDecimal_toDigitsCore (n + 1) n 0 (Nat.lt_succ_self n)]
  ring

theorem natRepr_injective : Function.Injective Nat.repr := by
  intro m n h
  have := parseDecimal_repr m
  rw [h, parseDecimal_repr n] at this
  omega

theorem candidateName_injective (base : String) :
    Function.Injective (candidateName base) := by
  intro i j h
  have hdata : (base ++ " ").data ++ (Nat.repr i).data
      = (base ++ " ").data ++ (Nat.repr j).data := by
    have := congrArg String.data h
    simpa [candidateName, String.data_append, List.append_assoc] using this
  have hrepr : (Nat.repr i).data = (Nat.repr j).data :=
    List.append_cancel_left hdata
  exact natRepr_injective (String.ext hrepr)

theorem length_filter_candidate_le (names : List String) (base : String)
    (i fuel : Nat) :
    ((List.range' i fuel).filter (fun j => candidateName base j ∈ names)).length
      ≤ names.length := by
  set l := (List.range' i fuel).filter (fun j => candidateName base j ∈ names) with hl
  have hnodup : l.Nodup := (List.nodup_range' i fuel).filter _
  have hmapnodup : (l.map (candidateName base)).Nodup :=
    hnodup.map (candidateName_injective base)
  have hsub : (l.map (candidateName base)).toFinset ⊆ names.toFinset := by
    intro x hx
    rw [List.mem_toFinset] at hx ⊢
    obtain ⟨j, hj, rfl⟩ := List.mem_map.mp hx
    have := List.of_mem_filter hj
    simpa using this
  calc l.length = (l.map (candidateName base)).length := (List.length_map _ _).symm
    _ = (l.map (candidateName base)).toFinset.card :=
        (List.toFinset_card_of_nodup hmapnodup).symm
    _ ≤ names.toFinset.card := Finset.card_le_card hsub
    _ ≤ names.length := List.toFinset_card_le names

theorem findSuffix_not_mem (names : List String) (base : String) :
    ∀ (fuel i : Nat),
      ((List.range' i fuel).filter (fun j => candidateName base j ∈ names)).length < fuel →
      candidateName base (findSuffix names base fuel i) ∉ names := by
  intro fuel
  induction fuel with
  | zero => intro i h; omega
  | succ fuel ih =>
    intro i h
    simp only [findSuffix]
    by_cases hc : candidateName base i ∈ names
    · simp only [hc, if_true]
      apply ih
      have hrange : List.range' i (fuel + 1) = i :: List.range' (i + 1) fuel :=
        List.range'_succ i fuel 1
      rw [hrange, List.filter_cons_of_pos (by simpa using hc), List.length_cons] at h
      omega
    · simp [hc]

/-- The name returned by `_getUniqueName` never collides with the names it
was checked against. -/
theorem getUniqueName_not_mem (names : List String) (name : String) :
    getUniqueName names name ∉ names := by
  unfold getUniqueName
  by_cases h : name ∈ names
  · simp only [h, if_true]
    exact findSuffix_not_mem names (stripNameSuffix name) (names.length + 1) 1
      (Nat.lt_succ_of_le (length_filter_candidate_le ..))
  · simp [h]

theorem namesExcluding_none (l : List SourceRec) :
    namesExcluding l none = namesOf l := by
  unfold namesExcluding namesOf
  rw [List.filter_true]
  rw [show (fun (p : Nat × SourceRec) => p.2.name)
      = (fun s : SourceRec => s.name) ∘ Prod.snd from rfl]
  rw [← List.map_map, List.enum_map_snd]

theorem namesExcluding_enumFrom (e : Int) :
    ∀ (l : List SourceRec) (n : Nat),
      ((List.enumFrom n l).filter (fun p => decide ((p.1 : Int) ≠ e))).map
          (fun p => p.2.name)
        = if 0 ≤ e - n ∧ e - n < l.length then
            (namesOf l).eraseIdx (e - n).toNat
          else namesOf l := by
  intro l
  induction l with
  | nil => intro n; simp [namesOf]
  | cons a t ih =>
    intro n
    rw [List.enumFrom_cons]
    by_cases he : (n : Int) = e
    · rw [List.filter_cons_of_neg (by simp [he])]
      rw [ih (n + 1)]
      have hcast : ((n + 1 : Nat) : Int) = (n : Int) + 1 := by push_cast; ring
      rw [hcast]
      rw [if_neg (by omega)]
      rw [if_pos (show 0 ≤ e - n ∧ e - n < ((a :: t).length : Int) by
        simp only [List.length_cons]; push_cast; omega)]
      have h0 : (e - n).toNat = 0 := by omega
      simp [h0, namesOf]
    · rw [List.filter_cons_of_pos (by simpa using he)]
      simp only [List.map_cons]
      rw [ih (n + 1)]
      have hcast : ((n + 1 : Nat) : Int) = (n : Int) + 1 := by push_cast; ring
      rw [hcast]
      by_cases hr : 0 ≤ e - ((n : Int) + 1) ∧ e - ((n : Int) + 1) < (t.length : Int)
      · rw [if_pos hr]
        rw [if_pos (show 0 ≤ e - n ∧ e - n < ((a :: t).length : Int) by
          simp only [List.length_cons]; push_cast; omega)]
        have hstep : (e - n).toNat = (e - ((n : Int) + 1)).toNat + 1 := by omega
        simp [hstep, namesOf]
      · rw [if_neg hr]
        rw [if_neg (show ¬(0 ≤ e - n ∧ e - n < ((a :: t).length : Int)) by
          simp only [List.length_cons]; push_cast; omega)]
        simp [namesOf]

theorem namesExcluding_some (l : List SourceRec) (e : Int) :
    namesExcluding l (some e)
      = if 0 ≤ e ∧ e < l.length then (namesOf l).eraseIdx e.toNat
        else namesOf l := by
  have h := namesExcluding_enumFrom e l 0
  simpa [namesExcluding, List.enum] using h

theorem checkUniqueNameNew_name_not_mem (sources : List SourceRec) (s : SourceRec) :
    (checkUniqueNameNew sources s).name ∉ namesOf sources := by
  rw [← namesExcluding_none sources]
  exact getUniqueName_not_mem (namesExcluding sources none) s.name

theorem pyInsertIdx_le (n : Nat) (i : Int) : pyInsertIdx n i ≤ n := by
  unfold pyInsertIdx
  split <;> omega

theorem nodupNames_pyInsert {l : List SourceRec} (i : Int) {x : SourceRec}
    (h : nodupNames l) (hx : x.name ∉ namesOf l) : nodupNames (pyInsert l i x) := by
  unfold pyInsert
  have hperm : List.Perm (l.insertIdx (pyInsertIdx l.length i) x) (x :: l) :=
    List.perm_insertIdx x l (pyInsertIdx_le l.length i)
  have hmap : List.Perm ((l.insertIdx (pyInsertIdx l.length i) x).map (fun s => s.name))
      ((x :: l).map (fun s => s.name)) :=
    hperm.map (fun s => s.name)
  unfold nodupNames namesOf
  rw [hmap.nodup_iff]
  simp only [List.map_cons]
  exact List.nodup_cons.mpr ⟨hx, h⟩

theorem nodup_set_of_not_mem_eraseIdx :
    ∀ {l : List String} {j : Nat} {a : String},
      l.Nodup → a ∉ l.eraseIdx j → (l.set j a).Nodup := by
  intro l
  induction l with
  | nil => intro j a _ _; simp
  | cons b t ih =>
    intro j a h ha
    match j with
    | 0 =>
      rw [List.eraseIdx_cons_zero] at ha
      rw [List.set_cons_zero]
      exact List.nodup_cons.mpr ⟨ha, (List.nodup_cons.mp h).2⟩
    | j + 1 =>
      rw [List.eraseIdx_cons_succ, List.mem_cons] at ha
      push_neg at ha
      rw [List.set_cons_succ]
      obtain ⟨hb, ht⟩ := List.nodup_cons.mp h
      refine List.nodup_cons.mpr ⟨?_, ih ht ha.2⟩
      intro hmem
      rcases List.mem_or_eq_of_mem_set hmem with h1 | h1
      · exact hb h1
      · exact ha.1 h1.symm

/-- `selectSource` only touches the selection fields. -/
theorem selectSource_sources (r : Registry) (i : Int) :
    (selectSource r i).sources = r.sources := rfl

theorem selectSource_activeIndex (r : Registry) (i : Int) :
    (selectSource r i).activeIndex = r.activeIndex := rfl

theorem selectSource_activeName (r : Registry) (i : Int) :
    (selectSource r i).activeName = r.activeName := rfl

theorem addSource_nodupNames (r : Registry) (source_data : Option SourceRec)
    (source_type source_path source_name : Option String) (template : SourceRec)
    (h : nodupNames r.sources) :
    nodupNames (addSource r source_data source_type source_path source_name
      template).sources := by
  unfold addSource
  rw [selectSource_sources]
  exact nodupNames_pyInsert _ h (checkUniqueNameNew_name_not_mem r.sources _)

theorem copySource_nodupNames (r r' : Registry)
    (h : nodupNames r.sources) (hr : copySource r = some r') :
    nodupNames r'.sources := by
  unfold copySource at hr
  simp only [Option.bind_eq_bind] at hr
  rw [Option.bind_eq_some] at hr
  obtain ⟨src, hget, hr⟩ := hr
  simp only [pure, Option.some.injEq] at hr
  subst hr
  rw [selectSource_sources]
  exact nodupNames_pyInsert _ h (checkUniqueNameNew_name_not_mem r.sources src)

theorem pasteSourceData_nodupNames (r : Registry) (index : Int)
    (data : Option SourceRec) (h : nodupNames r.sources) :
    nodupNames (pasteSourceData r index data).sources := by
  unfold pasteSourceData
  match data with
  | none => exact h
  | some d =>
    rw [selectSource_sources]
    exact nodupNames_pyInsert _ h (checkUniqueNameNew_name_not_mem r.sources d)

theorem renameSource_nodupNames (r : Registry) (index : Int) (newName : String)
    (h : nodupNames r.sources) :
    nodupNames (renameSource r index newName).sources := by
  unfold renameSource
  by_cases hidx : 0 ≤ index ∧ index < (r.sources.length : Int)
  · rw [if_pos hidx]
    simp only
    match hget : r.sources.get? index.toNat with
    | none => exact h
    | some s =>
      have hnm : getUniqueName (namesExcluding r.sources (some index)) newName
          ∉ (namesOf r.sources).eraseIdx index.toNat := by
        rw [namesExcluding_some, if_pos hidx]
        exact getUniqueName_not_mem _ newName
      unfold nodupNames
      rw [show namesOf (r.sources.set index.toNat
            { s with name := getUniqueName (namesExcluding r.sources (some index)) newName })
          = (namesOf r.sources).set index.toNat
            (getUniqueName (namesExcluding r.sources (some index)) newName) by
        unfold namesOf; rw [List.map_set]]
      exact nodup_set_of_not_mem_eraseIdx h hnm
  · rw [if_neg hidx]
    exact h

/-! ## Import preserves uniqueness

The key induction: running the `_checkUniqueName` loop over the block of
freshly spliced-in records, left to right, re-establishes name uniqueness
whenever the records around the block were unique to begin with. -/
theorem intRange_nil {a b : Int} (h : b ≤ a) : intRange a b = [] := by
  unfold intRange
  have : (b - a).toNat = 0 := by omega
  rw [this]
  rfl

theorem intRange_cons {a b : Int} (h : a < b) :
    intRange a b = a :: intRange (a + 1) b := by
  unfold intRange
  have h1 : (b - a).toNat = (b - (a + 1)).toNat + 1 := by omega
  rw [h1, List.range_succ_eq_map, List.map_cons, List.map_map]
  simp only [Nat.cast_zero, add_zero]
  congr 1
  apply List.map_congr_left
  intro k _
  simp only [Function.comp_apply]
  push_cast
  ring

theorem namesOf_append (A B : List SourceRec) :
    namesOf (A ++ B) = namesOf A ++ namesOf B := by
  unfold namesOf; rw [List.map_append]

theorem namesExcluding_splice (A : List SourceRec) (x : SourceRec) (R : List SourceRec) :
    namesExcluding (A ++ x :: R) (some (A.length : Int)) = namesOf A ++ namesOf R := by
  rw [namesExcluding_some]
  rw [if_pos (by simp only [List.length_append, List.length_cons]; omega)]
  have h1 : namesOf (A ++ x :: R) = namesOf A ++ (x.name :: namesOf R) := by
    rw [namesOf_append]; rfl
  rw [h1]
  have h2 : ((A.length : Int)).toNat = (namesOf A).length := by
    unfold namesOf; simp
  rw [h2, List.eraseIdx_append_of_length_le (Nat.le_refl _)]
  simp

theorem checkUniqueNameAt_splice (A : List SourceRec) (x : SourceRec) (R : List SourceRec) :
    checkUniqueNameAt (A ++ x :: R) ((A.length : Int))
      = some (A ++ { x with name := getUniqueName (namesOf (A ++ R)) x.name } :: R) := by
  have hres : pyResolveIdx (A ++ x :: R).length ((A.length : Int)) = some A.length := by
    unfold pyResolveIdx
    rw [if_pos (by simp only [List.length_append, List.length_cons]; omega)]
    exact congrArg some (by omega)
  have hget : (A ++ x :: R).get? A.length = some x := by
    rw [List.get?_eq_getElem?, List.getElem?_append_right (Nat.le_refl _)]
    simp
  have hset : ∀ y, (A ++ x :: R).set A.length y = A ++ y :: R := by
    intro y
    rw [List.set_append_right _ _ (Nat.le_refl _)]
    simp
  unfold checkUniqueNameAt
  rw [hres]
  simp only [Option.bind_eq_bind, Option.some_bind]
  rw [hget]
  simp only [Option.some_bind]
  rw [hset, namesExcluding_splice, ← namesOf_append]
  rfl

theorem not_mem_namesOf_append {a : String} {A B : List SourceRec}
    (h : a ∉ namesOf (A ++ B)) : a ∉ namesOf A ∧ a ∉ namesOf B := by
  rw [namesOf_append] at h
  exact ⟨fun hm => h (List.mem_append_left _ hm),
         fun hm => h (List.mem_append_right _ hm)⟩

theorem checkUniqueLoop_splice :
    ∀ (I A B : List SourceRec), nodupNames (A ++ B) →
      ∃ final,
        checkUniqueLoop (A ++ I ++ B)
            (intRange (A.length : Int) ((A.length : Int) + (I.length : Int))) = some final
          ∧ nodupNames final := by
  intro I
  induction I with
  | nil =>
    intro A B h
    refine ⟨A ++ B, ?_, h⟩
    rw [intRange_nil (by simp)]
    simp [checkUniqueLoop]
  | cons x I ih =>
    intro A B h
    have hsplit : A ++ (x :: I) ++ B = A ++ x :: (I ++ B) := by
      simp [List.append_assoc]
    have hstep := checkUniqueNameAt_splice A x (I ++ B)
    have hfresh : (getUniqueName (namesOf (A ++ (I ++ B))) x.name) ∉ namesOf (A ++ (I ++ B)) :=
      getUniqueName_not_mem _ x.name
    have hfreshA : (getUniqueName (namesOf (A ++ (I ++ B))) x.name) ∉ namesOf A :=
      (not_mem_namesOf_append hfresh).1
    have hfreshB : (getUniqueName (namesOf (A ++ (I ++ B))) x.name) ∉ namesOf B :=
      (not_mem_namesOf_append (not_mem_namesOf_append hfresh).2).2
    have hnodup' :
        nodupNames ((A ++ [{ x with name := getUniqueName (namesOf (A ++ (I ++ B))) x.name }]) ++ B) := by
      unfold nodupNames
      have hperm : List.Perm
          (namesOf ((A ++ [{ x with name := getUniqueName (namesOf (A ++ (I ++ B))) x.name }]) ++ B))
          ((getUniqueName (namesOf (A ++ (I ++ B))) x.name) :: (namesOf A ++ namesOf B)) := by
        rw [namesOf_append, namesOf_append]
        have : namesOf [{ x with name := getUniqueName (namesOf (A ++ (I ++ B))) x.name }]
            = [getUniqueName (namesOf (A ++ (I ++ B))) x.name] := rfl
        rw [this, List.append_assoc]
        exact List.perm_middle
      rw [hperm.nodup_iff]
      refine List.nodup_cons.mpr ⟨?_, ?_⟩
      · intro hmem
        rcases List.mem_append.mp hmem with hA | hB
        · exact hfreshA hA
        · exact hfreshB hB
      · have := h
        unfold nodupNames at this
        rwa [namesOf_append] at this
    obtain ⟨final, hloop, hnodup⟩ :=
      ih (A ++ [{ x with name := getUniqueName (namesOf (A ++ (I ++ B))) x.name }]) B hnodup'
    refine ⟨final, ?_, hnodup⟩
    rw [intRange_cons (by simp only [List.length_cons]; push_cast; omega)]
    rw [hsplit]
    unfold checkUniqueLoop
    rw [hstep]
    simp only [Option.bind_eq_bind, Option.some_bind]
    have hlist : A ++ { x with name := getUniqueName (namesOf (A ++ (I ++ B))) x.name } :: (I ++ B)
        = (A ++ [{ x with name := getUniqueName (namesOf (A ++ (I ++ B))) x.name }]) ++ I ++ B := by
      simp [List.append_assoc]
    have hrange : intRange ((A.length : Int) + 1)
          ((A.length : Int) + ((x :: I).length : Int))
        = intRange (((A ++ [{ x with name := getUniqueName (namesOf (A ++ (I ++ B))) x.name }]).length : Int))
            ((((A ++ [{ x with name := getUniqueName (namesOf (A ++ (I ++ B))) x.name }]).length : Int))
              + (I.length : Int)) := by
      congr 1
      · simp only [List.length_append, List.length_cons, List.length_nil]
        push_cast
        omega
      · simp only [List.length_append, List.length_cons, List.length_nil]
        push_cast
        omega
    rw [hlist, hrange]
    exact hloop

theorem importSources_nodupNames (r : Registry) (mode : ImportMode)
    (imported : List SourceRec) (r' : Registry)
    (h : nodupNames r.sources)
    (hsel : mode = ImportMode.insertAboveSelected →
      0 ≤ r.selectedIndex ∧ r.selectedIndex ≤ (r.sources.length : Int))
    (hr : importSources r mode imported = some r') :
    nodupNames r'.sources := by
  unfold importSources at hr
  by_cases himp : imported.isEmpty
  · rw [if_pos himp] at hr
    cases hr
    exact h
  · rw [if_neg himp] at hr
    cases mode with
    | prepend =>
      dsimp only at hr
      obtain ⟨final, hloop, hnodup⟩ :=
        checkUniqueLoop_splice imported [] r.sources (by simpa using h)
      simp only [List.nil_append, List.length_nil, Nat.cast_zero, zero_add] at hloop
      rw [hloop] at hr
      simp only [Option.bind_eq_bind, Option.some_bind, pure, Option.some.injEq] at hr
      subst hr
      exact hnodup
    | append =>
      dsimp only at hr
      obtain ⟨final, hloop, hnodup⟩ :=
        checkUniqueLoop_splice imported r.sources [] (by simpa using h)
      simp only [List.append_nil] at hloop
      rw [hloop] at hr
      simp only [Option.bind_eq_bind, Option.some_bind, pure, Option.some.injEq] at hr
      subst hr
      exact hnodup
    | insertAboveSelected =>
      dsimp only at hr
      obtain ⟨hs0, hs1⟩ := hsel rfl
      have hk : pySliceIdx r.sources.length r.selectedIndex = r.selectedIndex.toNat := by
        unfold pySliceIdx
        rw [if_neg (by omega)]
        omega
      have hAlen : (r.sources.take r.selectedIndex.toNat).length = r.selectedIndex.toNat := by
        rw [List.length_take]
        omega
      obtain ⟨final, hloop, hnodup⟩ :=
        checkUniqueLoop_splice imported (r.sources.take r.selectedIndex.toNat)
          (r.sources.drop r.selectedIndex.toNat)
          (by rw [List.take_append_drop]; exact h)
      rw [hk] at hr
      rw [hAlen] at hloop
      have hcast : ((r.selectedIndex.toNat : Nat) : Int) = r.selectedIndex := by omega
      rw [hcast] at hloop
      rw [hloop] at hr
      simp only [Option.bind_eq_bind, Option.some_bind, pure, Option.some.injEq] at hr
      subst hr
      exact hnodup

theorem applyRegOp_nodupNames (r r' : Registry) (op : RegOp)
    (h : nodupNames r.sources) (hok : importInsertOk r op)
    (hr : applyRegOp r op = some r') : nodupNames r'.sources := by
  cases op with
  | add sd st sp sn tpl =>
    cases hr
    exact addSource_nodupNames r sd st sp sn tpl h
  | rename i nm =>
    cases hr
    exact renameSource_nodupNames r i nm h
  | paste i d =>
    cases hr
    exact pasteSourceData_nodupNames r i d h
  | imp mode recs =>
    refine importSources_nodupNames r mode recs r' h ?_ hr
    intro hmode
    subst hmode
    exact hok

/-! ## Index tracking under Delete and Move -/
theorem pyPop_eq (l : List α) (i : Int) (h0 : 0 ≤ i) (h1 : i < (l.length : Int))
    (x : α) (hx : l.get? i.toNat = some x) :
    pyPop l i = some (x, l.eraseIdx i.toNat) := by
  unfold pyPop pyResolveIdx
  rw [if_pos ⟨h0, h1⟩]
  rw [List.get?_eq_getElem?] at hx
  simp [hx]

theorem selectSource_spec (r : Registry) (i : Int) :
    (selectSource r i).sources = r.sources
    ∧ (selectSource r i).activeIndex = r.activeIndex
    ∧ (selectSource r i).selectedIndex
        = (if i > (r.sources.length : Int) - 1 then i - 1 else i) :=
  ⟨rfl, rfl, rfl⟩

theorem deleteSource_tracking (r r' : Registry)
    (hlen : 2 ≤ r.sources.length)
    (hs0 : 0 ≤ r.selectedIndex) (hs1 : r.selectedIndex < (r.sources.length : Int))
    (hr : deleteSource r = some r') :
    r'.sources = r.sources.eraseIdx r.selectedIndex.toNat
    ∧ (r.activeIndex = r.selectedIndex → r'.activeIndex = -1)
    ∧ (r.activeIndex > r.selectedIndex →
        r'.activeIndex = r.activeIndex - 1
        ∧ (r.activeIndex < (r.sources.length : Int) →
            r'.sources.get? r'.activeIndex.toNat = r.sources.get? r.activeIndex.toNat))
    ∧ (0 ≤ r.activeIndex → r.activeIndex < r.selectedIndex →
        r'.activeIndex = r.activeIndex
        ∧ r'.sources.get? r'.activeIndex.toNat = r.sources.get? r.activeIndex.toNat)
    ∧ r'.selectedIndex = (if r.selectedIndex = (r.sources.length : Int) - 1
        then r.selectedIndex - 1 else r.selectedIndex)
    ∧ 0 ≤ r'.selectedIndex ∧ r'.selectedIndex < (r'.sources.length : Int) := by
  have hsNat : r.selectedIndex.toNat < r.sources.length := by omega
  have hget : r.sources.get? r.selectedIndex.toNat
      = some (r.sources.get ⟨r.selectedIndex.toNat, hsNat⟩) :=
    List.get?_eq_get hsNat
  have hpop := pyPop_eq r.sources r.selectedIndex hs0 hs1 _ hget
  have herlen : (r.sources.eraseIdx r.selectedIndex.toNat).length
      = r.sources.length - 1 := by
    rw [List.length_eraseIdx]
    simp [hsNat]
  have hera : ∀ (j : Nat), r.selectedIndex.toNat ≤ j →
      (r.sources.eraseIdx r.selectedIndex.toNat).get? j = r.sources.get? (j + 1) := by
    intro j hj
    rw [List.get?_eq_getElem?, List.get?_eq_getElem?]
    exact List.getElem?_eraseIdx_of_ge r.sources r.selectedIndex.toNat j hj
  have herb : ∀ (j : Nat), j < r.selectedIndex.toNat →
      (r.sources.eraseIdx r.selectedIndex.toNat).get? j = r.sources.get? j := by
    intro j hj
    rw [List.get?_eq_getElem?, List.get?_eq_getElem?]
    exact List.getElem?_eraseIdx_of_lt r.sources r.selectedIndex.toNat j hj
  unfold deleteSource at hr
  rw [if_neg (by omega)] at hr
  rw [hpop] at hr
  simp only [Option.bind_eq_bind, Option.some_bind] at hr
  rw [herlen] at hr
  have hbranch : ∀ (rr : Registry) (i : Int),
      rr.sources = r.sources.eraseIdx r.selectedIndex.toNat →
      rr.activeIndex = (if r.activeIndex = r.selectedIndex then (-1 : Int)
        else if r.activeIndex > r.selectedIndex then r.activeIndex - 1
        else r.activeIndex) →
      (selectSource rr i).sources = r.sources.eraseIdx r.selectedIndex.toNat
      ∧ (r.activeIndex = r.selectedIndex → (selectSource rr i).activeIndex = -1)
      ∧ (r.activeIndex > r.selectedIndex →
          (selectSource rr i).activeIndex = r.activeIndex - 1
          ∧ (r.activeIndex < (r.sources.length : Int) →
              (selectSource rr i).sources.get? (selectSource rr i).activeIndex.toNat
                = r.sources.get? r.activeIndex.toNat))
      ∧ (0 ≤ r.activeIndex → r.activeIndex < r.selectedIndex →
          (selectSource rr i).activeIndex = r.activeIndex
          ∧ (selectSource rr i).sources.get? (selectSource rr i).activeIndex.toNat
              = r.sources.get? r.activeIndex.toNat)
      ∧ (selectSource rr i).selectedIndex
          = (if i > ((r.sources.length : Int) - 1) - 1 then i - 1 else i) := by
    intro rr i hsrc hact
    have hsrcS : (selectSource rr i).sources = r.sources.eraseIdx r.selectedIndex.toNat := by
      rw [(selectSource_spec _ _).1, hsrc]
    refine ⟨hsrcS, ?_, ?_, ?_, ?_⟩
    · intro h
      rw [(selectSource_spec _ _).2.1, hact, if_pos h]
    · intro h
      have hval : (selectSource rr i).activeIndex = r.activeIndex - 1 := by
        rw [(selectSource_spec _ _).2.1, hact, if_neg (by omega), if_pos h]
      refine ⟨hval, ?_⟩
      intro hv
      rw [hval, hsrcS]
      have hidx : (r.activeIndex - 1).toNat + 1 = r.activeIndex.toNat := by omega
      rw [hera (r.activeIndex - 1).toNat (by omega), hidx]
    · intro h0 hlt
      have hval : (selectSource rr i).activeIndex = r.activeIndex := by
        rw [(selectSource_spec _ _).2.1, hact, if_neg (by omega), if_neg (by omega)]
      refine ⟨hval, ?_⟩
      rw [hval, hsrcS]
      exact herb r.activeIndex.toNat (by omega)
    · rw [(selectSource_spec _ _).2.2, hsrc, herlen]
      have hc : ((r.sources.length - 1 : Nat) : Int) = (r.sources.length : Int) - 1 := by
        omega
      rw [hc]
  by_cases hend : r.selectedIndex ≥ ((r.sources.length - 1 : Nat) : Int)
  · rw [if_pos hend] at hr
    simp only [pure, Option.some.injEq] at hr
    subst hr
    obtain ⟨c1, c2, c3, c4, c5⟩ := hbranch
      { sources := r.sources.eraseIdx r.selectedIndex.toNat,
        selectedIndex := r.selectedIndex, selectedName := r.selectedName,
        activeIndex := if r.activeIndex = r.selectedIndex then -1
          else if r.activeIndex > r.selectedIndex then r.activeIndex - 1
          else r.activeIndex,
        activeName := if r.activeIndex = r.selectedIndex then "" else r.activeName } (((r.sources.length - 1 : Nat) : Int) - 1) rfl rfl
    refine ⟨c1, c2, c3, c4, ?_, ?_, ?_⟩
    · rw [c5]
      have hsv : r.selectedIndex = (r.sources.length : Int) - 1 := by omega
      rw [if_neg (by omega), if_pos hsv]
      omega
    · rw [c5, if_neg (by omega)]
      omega
    · rw [c5, if_neg (by omega), c1, herlen]
      omega
  · rw [if_neg hend] at hr
    simp only [pure, Option.some.injEq] at hr
    subst hr
    obtain ⟨c1, c2, c3, c4, c5⟩ := hbranch
      { sources := r.sources.eraseIdx r.selectedIndex.toNat,
        selectedIndex := r.selectedIndex, selectedName := r.selectedName,
        activeIndex := if r.activeIndex = r.selectedIndex then -1
          else if r.activeIndex > r.selectedIndex then r.activeIndex - 1
          else r.activeIndex,
        activeName := if r.activeIndex = r.selectedIndex then "" else r.activeName } r.selectedIndex rfl rfl
    refine ⟨c1, c2, c3, c4, ?_, ?_, ?_⟩
    · rw [c5, if_neg (by omega), if_neg (by omega)]
    · rw [c5, if_neg (by omega)]
      omega
    · rw [c5, if_neg (by omega), c1, herlen]
      omega

theorem get?_eraseIdx_of_ge (l : List α) (k j : Nat) (hj : k ≤ j) :
    (l.eraseIdx k).get? j = l.get? (j + 1) := by
  rw [List.get?_eq_getElem?, List.get?_eq_getElem?]
  exact List.getElem?_eraseIdx_of_ge l k j hj

theorem get?_eraseIdx_of_lt (l : List α) (k j : Nat) (hj : j < k) :
    (l.eraseIdx k).get? j = l.get? j := by
  rw [List.get?_eq_getElem?, List.get?_eq_getElem?]
  exact List.getElem?_eraseIdx_of_lt l k j hj

theorem get?_insertIdx (x : α) :
    ∀ (l : List α) (k j : Nat), k ≤ l.length →
      (l.insertIdx k x).get? j
        = if j < k then l.get? j else if j = k then some x else l.get? (j - 1) := by
  intro l
  induction l with
  | nil =>
    intro k j hk
    match k with
    | 0 =>
      match j with
      | 0 => simp
      | j + 1 => simp
    | k + 1 => simp at hk
  | cons a t ih =>
    intro k j hk
    match k with
    | 0 =>
      simp only [List.insertIdx_zero]
      match j with
      | 0 => simp
      | j + 1 => simp
    | k + 1 =>
      rw [List.insertIdx_succ_cons]
      match j with
      | 0 => simp
      | j + 1 =>
        rw [List.get?_cons_succ, ih k j (by simpa using hk)]
        have hlt : (j + 1 < k + 1) ↔ (j < k) := by omega
        by_cases h1 : j < k
        · rw [if_pos h1, if_pos (hlt.mpr h1), List.get?_cons_succ]
        · rw [if_neg h1, if_neg (fun hc => h1 (hlt.mp hc))]
          by_cases h2 : j = k
          · rw [if_pos h2, if_pos (show j + 1 = k + 1 by omega)]
          · rw [if_neg h2, if_neg (show ¬(j + 1 = k + 1) by omega)]
            have hj1 : j + 1 - 1 = (j - 1) + 1 := by omega
            rw [hj1, List.get?_cons_succ]

theorem moveSource_tracking (r : Registry) (fromIndex toIndex : Int)
    (hf0 : 0 ≤ fromIndex) (hf1 : fromIndex < (r.sources.length : Int)) :
    (moveSource r fromIndex toIndex).selectedIndex
      = (if fromIndex < max 0 (min toIndex (r.sources.length : Int))
          then max 0 (min toIndex (r.sources.length : Int)) - 1
          else max 0 (min toIndex (r.sources.length : Int)))
    ∧ (moveSource r fromIndex toIndex).sources.get?
        (moveSource r fromIndex toIndex).selectedIndex.toNat
      = r.sources.get? fromIndex.toNat
    ∧ (r.activeIndex = fromIndex →
        (moveSource r fromIndex toIndex).activeIndex
          = (moveSource r fromIndex toIndex).selectedIndex)
    ∧ (r.activeIndex ≠ fromIndex → 0 ≤ r.activeIndex →
        r.activeIndex < (r.sources.length : Int) →
        (moveSource r fromIndex toIndex).sources.get?
            (moveSource r fromIndex toIndex).activeIndex.toNat
          = r.sources.get? r.activeIndex.toNat) := by
  have hsNat : fromIndex.toNat < r.sources.length := by omega
  have hget : r.sources.get? fromIndex.toNat
      = some (r.sources.get ⟨fromIndex.toNat, hsNat⟩) :=
    List.get?_eq_get hsNat
  have hpop := pyPop_eq r.sources fromIndex hf0 hf1 _ hget
  have herlen : (r.sources.eraseIdx fromIndex.toNat).length = r.sources.length - 1 := by
    rw [List.length_eraseIdx]
    simp [hsNat]
  have htc0 : 0 ≤ max 0 (min toIndex (r.sources.length : Int)) := by omega
  have htc1 : max 0 (min toIndex (r.sources.length : Int)) ≤ (r.sources.length : Int) := by
    omega
  set tc : Int := max 0 (min toIndex (r.sources.length : Int)) with htc
  set ta : Int := if fromIndex < tc then tc - 1 else tc with hta
  have hta0 : 0 ≤ ta := by rw [hta]; split_ifs <;> omega
  have hta1 : ta ≤ (r.sources.length : Int) - 1 := by
    rw [hta]; split_ifs <;> omega
  have hinsidx : pyInsertIdx (r.sources.eraseIdx fromIndex.toNat).length ta = ta.toNat := by
    unfold pyInsertIdx
    rw [if_neg (by omega), herlen]
    omega
  have hmv : moveSource r fromIndex toIndex
      = { sources := pyInsert (r.sources.eraseIdx fromIndex.toNat) ta
            (r.sources.get ⟨fromIndex.toNat, hsNat⟩),
          selectedIndex := ta,
          selectedName := (r.sources.get ⟨fromIndex.toNat, hsNat⟩).name,
          activeIndex :=
            (if fromIndex = r.activeIndex then ta
             else if 0 ≤ r.activeIndex then
               (if fromIndex < r.activeIndex ∧ r.activeIndex ≤ ta then r.activeIndex - 1
                else if ta ≤ r.activeIndex ∧ r.activeIndex < fromIndex then r.activeIndex + 1
                else r.activeIndex)
             else r.activeIndex),
          activeName := r.activeName } := by
    unfold moveSource
    rw [if_neg (by omega), hpop]
  have hsrc2 : pyInsert (r.sources.eraseIdx fromIndex.toNat) ta
        (r.sources.get ⟨fromIndex.toNat, hsNat⟩)
      = (r.sources.eraseIdx fromIndex.toNat).insertIdx ta.toNat
          (r.sources.get ⟨fromIndex.toNat, hsNat⟩) := by
    unfold pyInsert
    rw [hinsidx]
  have hbound : ta.toNat ≤ (r.sources.eraseIdx fromIndex.toNat).length := by
    rw [herlen]; omega
  have hgetTa : ((r.sources.eraseIdx fromIndex.toNat).insertIdx ta.toNat
        (r.sources.get ⟨fromIndex.toNat, hsNat⟩)).get? ta.toNat
      = some (r.sources.get ⟨fromIndex.toNat, hsNat⟩) := by
    rw [get?_insertIdx _ _ ta.toNat ta.toNat hbound]
    rw [if_neg (by omega), if_pos rfl]
  refine ⟨?_, ?_, ?_, ?_⟩
  · rw [hmv]
  · rw [hmv]
    show (pyInsert (r.sources.eraseIdx fromIndex.toNat) ta
        (r.sources.get ⟨fromIndex.toNat, hsNat⟩)).get? ta.toNat = _
    rw [hsrc2, hgetTa, hget]
  · intro h
    rw [hmv]
    show (if fromIndex = r.activeIndex then ta else _) = ta
    rw [if_pos h.symm]
  · intro hne h0 hlt
    rw [hmv]
    show (pyInsert (r.sources.eraseIdx fromIndex.toNat) ta
        (r.sources.get ⟨fromIndex.toNat, hsNat⟩)).get?
        (if fromIndex = r.activeIndex then ta
         else if 0 ≤ r.activeIndex then
           (if fromIndex < r.activeIndex ∧ r.activeIndex ≤ ta then r.activeIndex - 1
            else if ta ≤ r.activeIndex ∧ r.activeIndex < fromIndex then r.activeIndex + 1
            else r.activeIndex)
         else r.activeIndex).toNat
      = r.sources.get? r.activeIndex.toNat
    rw [hsrc2, if_neg (fun hc => hne hc.symm), if_pos h0]
    by_cases hc1 : fromIndex < r.activeIndex ∧ r.activeIndex ≤ ta
    · rw [if_pos hc1]
      rw [get?_insertIdx _ _ ta.toNat (r.activeIndex - 1).toNat hbound]
      rw [if_pos (by omega)]
      rw [get?_eraseIdx_of_ge _ _ _ (by omega)]
      congr 1
      omega
    · rw [if_neg hc1]
      by_cases hc2 : ta ≤ r.activeIndex ∧ r.activeIndex < fromIndex
      · rw [if_pos hc2]
        rw [get?_insertIdx _ _ ta.toNat (r.activeIndex + 1).toNat hbound]
        rw [if_neg (by omega), if_neg (by omega)]
        rw [show (r.activeIndex + 1).toNat - 1 = r.activeIndex.toNat by omega]
        rw [get?_eraseIdx_of_lt _ _ _ (by omega)]
      · rw [if_neg hc2]
        rw [get?_insertIdx _ _ ta.toNat r.activeIndex.toNat hbound]
        by_cases hc3 : r.activeIndex < ta
        · rw [if_pos (by omega)]
          rw [get?_eraseIdx_of_lt _ _ _ (by omega)]
        · rw [if_neg (by omega), if_neg (by omega)]
          rw [get?_eraseIdx_of_ge _ _ _ (by omega)]
          congr 1
          omega

theorem moveSourceUp_tracking (r r' : Registry)
    (hs0 : 0 < r.selectedIndex) (hs1 : r.selectedIndex < (r.sources.length : Int))
    (hr : moveSourceUp r = some r') :
    r'.activeIndex = r.activeIndex
    ∧ r'.activeName = r.activeName
    ∧ r'.selectedIndex = r.selectedIndex - 1
    ∧ r'.sources.get? (r.selectedIndex - 1).toNat
        = r.sources.get? r.selectedIndex.toNat := by
  have hsNat : r.selectedIndex.toNat < r.sources.length := by omega
  have hget : r.sources.get? r.selectedIndex.toNat
      = some (r.sources.get ⟨r.selectedIndex.toNat, hsNat⟩) :=
    List.get?_eq_get hsNat
  have hpop := pyPop_eq r.sources r.selectedIndex (by omega) hs1 _ hget
  have herlen : (r.sources.eraseIdx r.selectedIndex.toNat).length
      = r.sources.length - 1 := by
    rw [List.length_eraseIdx]
    simp [hsNat]
  have hinsidx : pyInsertIdx (r.sources.eraseIdx r.selectedIndex.toNat).length
      (r.selectedIndex - 1) = (r.selectedIndex - 1).toNat := by
    unfold pyInsertIdx
    rw [if_neg (by omega), herlen]
    omega
  have hsrc2 : pyInsert (r.sources.eraseIdx r.selectedIndex.toNat) (r.selectedIndex - 1)
        (r.sources.get ⟨r.selectedIndex.toNat, hsNat⟩)
      = (r.sources.eraseIdx r.selectedIndex.toNat).insertIdx (r.selectedIndex - 1).toNat
          (r.sources.get ⟨r.selectedIndex.toNat, hsNat⟩) := by
    unfold pyInsert
    rw [hinsidx]
  have hinslen : ((r.sources.eraseIdx r.selectedIndex.toNat).insertIdx
        (r.selectedIndex - 1).toNat
        (r.sources.get ⟨r.selectedIndex.toNat, hsNat⟩)).length = r.sources.length := by
    rw [List.length_insertIdx _ _ (by rw [herlen]; omega), herlen]
    omega
  unfold moveSourceUp at hr
  rw [if_pos hs0, hpop] at hr
  simp only [Option.bind_eq_bind, Option.some_bind, pure, Option.some.injEq] at hr
  subst hr
  have hsel2 : (selectSourceUp
      { sources := pyInsert (r.sources.eraseIdx r.selectedIndex.toNat) (r.selectedIndex - 1)
          (r.sources.get ⟨r.selectedIndex.toNat, hsNat⟩),
        selectedIndex := r.selectedIndex, selectedName := r.selectedName,
        activeIndex := r.activeIndex, activeName := r.activeName } : Registry)
      = selectSource
        { sources := pyInsert (r.sources.eraseIdx r.selectedIndex.toNat) (r.selectedIndex - 1)
            (r.sources.get ⟨r.selectedIndex.toNat, hsNat⟩),
          selectedIndex := r.selectedIndex, selectedName := r.selectedName,
          activeIndex := r.activeIndex, activeName := r.activeName }
        (r.selectedIndex - 1) := by
    unfold selectSourceUp
    rw [if_pos hs0]
  rw [hsel2]
  refine ⟨(selectSource_spec _ _).2.1, rfl, ?_, ?_⟩
  · rw [(selectSource_spec _ _).2.2]
    rw [if_neg (by
      show ¬(r.selectedIndex - 1 >
        (((pyInsert (r.sources.eraseIdx r.selectedIndex.toNat) (r.selectedIndex - 1)
          (r.sources.get ⟨r.selectedIndex.toNat, hsNat⟩)).length : Int) - 1))
      rw [hsrc2, hinslen]
      omega)]
  · rw [(selectSource_spec _ _).1]
    show (pyInsert (r.sources.eraseIdx r.selectedIndex.toNat) (r.selectedIndex - 1)
        (r.sources.get ⟨r.selectedIndex.toNat, hsNat⟩)).get? (r.selectedIndex - 1).toNat
      = _
    rw [hsrc2]
    rw [get?_insertIdx _ _ _ _ (by rw [herlen]; omega)]
    rw [if_neg (by omega), if_pos rfl, hget]

theorem moveSourceDown_tracking (r r' : Registry)
    (hs0 : 0 ≤ r.selectedIndex) (hs1 : r.selectedIndex < (r.sources.length : Int) - 1)
    (hr : moveSourceDown r = some r') :
    r'.activeIndex = r.activeIndex
    ∧ r'.activeName = r.activeName
    ∧ r'.selectedIndex = r.selectedIndex + 1
    ∧ r'.sources.get? (r.selectedIndex + 1).toNat
        = r.sources.get? r.selectedIndex.toNat := by
  have hsNat : r.selectedIndex.toNat < r.sources.length := by omega
  have hget : r.sources.get? r.selectedIndex.toNat
      = some (r.sources.get ⟨r.selectedIndex.toNat, hsNat⟩) :=
    List.get?_eq_get hsNat
  have hpop := pyPop_eq r.sources r.selectedIndex hs0 (by omega) _ hget
  have herlen : (r.sources.eraseIdx r.selectedIndex.toNat).length
      = r.sources.length - 1 := by
    rw [List.length_eraseIdx]
    simp [hsNat]
  have hinsidx : pyInsertIdx (r.sources.eraseIdx r.selectedIndex.toNat).length
      (r.selectedIndex + 1) = (r.selectedIndex + 1).toNat := by
    unfold pyInsertIdx
    rw [if_neg (by omega), herlen]
    omega
  have hsrc2 : pyInsert (r.sources.eraseIdx r.selectedIndex.toNat) (r.selectedIndex + 1)
        (r.sources.get ⟨r.selectedIndex.toNat, hsNat⟩)
      = (r.sources.eraseIdx r.selectedIndex.toNat).insertIdx (r.selectedIndex + 1).toNat
          (r.sources.get ⟨r.selectedIndex.toNat, hsNat⟩) := by
    unfold pyInsert
    rw [hinsidx]
  have hinslen : ((r.sources.eraseIdx r.selectedIndex.toNat).insertIdx
        (r.selectedIndex + 1).toNat
        (r.sources.get ⟨r.selectedIndex.toNat, hsNat⟩)).length = r.sources.length := by
    rw [List.length_insertIdx _ _ (by rw [herlen]; omega), herlen]
    omega
  unfold moveSourceDown at hr
  rw [if_pos hs1, hpop] at hr
  simp only [Option.bind_eq_bind, Option.some_bind, pure, Option.some.injEq] at hr
  subst hr
  have hsel2 : (selectSourceDown
      { sources := pyInsert (r.sources.eraseIdx r.selectedIndex.toNat) (r.selectedIndex + 1)
          (r.sources.get ⟨r.selectedIndex.toNat, hsNat⟩),
        selectedIndex := r.selectedIndex, selectedName := r.selectedName,
        activeIndex := r.activeIndex, activeName := r.activeName } : Registry)
      = selectSource
        { sources := pyInsert (r.sources.eraseIdx r.selectedIndex.toNat) (r.selectedIndex + 1)
            (r.sources.get ⟨r.selectedIndex.toNat, hsNat⟩),
          selectedIndex := r.selectedIndex, selectedName := r.selectedName,
          activeIndex := r.activeIndex, activeName := r.activeName }
        (r.selectedIndex + 1) := by
    unfold selectSourceDown
    rw [if_pos (by
      show r.selectedIndex <
        (((pyInsert (r.sources.eraseIdx r.selectedIndex.toNat) (r.selectedIndex + 1)
          (r.sources.get ⟨r.selectedIndex.toNat, hsNat⟩)).length : Int) - 1)
      rw [hsrc2, hinslen]
      omega)]
  rw [hsel2]
  refine ⟨(selectSource_spec _ _).2.1, rfl, ?_, ?_⟩
  · rw [(selectSource_spec _ _).2.2]
    rw [if_neg (by
      show ¬(r.selectedIndex + 1 >
        (((pyInsert (r.sources.eraseIdx r.selectedIndex.toNat) (r.selectedIndex + 1)
          (r.sources.get ⟨r.selectedIndex.toNat, hsNat⟩)).length : Int) - 1))
      rw [hsrc2, hinslen]
      omega)]
  · rw [(selectSource_spec _ _).1]
    show (pyInsert (r.sources.eraseIdx r.selectedIndex.toNat) (r.selectedIndex + 1)
        (r.sources.get ⟨r.selectedIndex.toNat, hsNat⟩)).get? (r.selectedIndex + 1).toNat
      = _
    rw [hsrc2]
    rw [get?_insertIdx _ _ _ _ (by rw [herlen]; omega)]
    rw [if_neg (by omega), if_pos rfl, hget]

/-! ## Behaviour of `Take` and `_getSource` -/
theorem beginTransition_success (m : Machine) (source : SourceRef)
    (res : LookupResult) (hres : getSource m.sources source = some res)
    (d : SourceRec) (hd : res.sourceData = some d) :
    beginTransition m source
      = some { m with
          phase := Phase.transitioning,
          state := 1 - m.state,
          activeIndex := res.index.getD m.activeIndex,
          activeName := res.name.getD m.activeName } := by
  unfold beginTransition
  dsimp only
  rw [hres]
  simp only [Option.bind_eq_bind, Option.some_bind]
  rw [hd]
  rfl

theorem beginTransition_failure (m : Machine) (source : SourceRef)
    (res : LookupResult) (hres : getSource m.sources source = some res)
    (hd : res.sourceData = none) :
    beginTransition m source = some { m with phase := Phase.idle } := by
  unfold beginTransition
  dsimp only
  rw [hres]
  simp only [Option.bind_eq_bind, Option.some_bind]
  rw [hd]
  rfl

theorem take_force (m : Machine) (source : SourceRef) (queueEnabled : Bool) :
    take m source true queueEnabled
      = beginTransition { m with pendingQueue := [] } source := by
  unfold take
  rw [if_pos rfl]

theorem take_idle (m : Machine) (source : SourceRef) (queueEnabled : Bool)
    (h : m.phase = Phase.idle) :
    take m source false queueEnabled = beginTransition m source := by
  unfold take
  rw [if_neg (by simp)]
  rw [if_neg (by simp [h])]

theorem take_queue_append (m : Machine) (source : SourceRef)
    (h : m.phase = Phase.transitioning)
    (hq : m.pendingQueue = [] ∨ m.pendingQueue.getLast? ≠ some source) :
    take m source false true
      = some { m with pendingQueue := m.pendingQueue ++ [source] } := by
  unfold take
  rw [if_neg (by simp)]
  rw [if_pos (by simp [h])]
  rw [if_pos rfl]
  rw [if_pos hq]

theorem take_queue_dedup (m : Machine) (source : SourceRef)
    (h : m.phase = Phase.transitioning)
    (hq : m.pendingQueue.getLast? = some source) :
    take m source false true = some m := by
  unfold take
  rw [if_neg (by simp)]
  rw [if_pos (by simp [h])]
  rw [if_pos rfl]
  rw [if_neg (by
    push_neg
    refine ⟨?_, by simp [hq]⟩
    intro hnil
    rw [hnil] at hq
    simp at hq)]

theorem take_no_queue (m : Machine) (source : SourceRef)
    (h : m.phase = Phase.transitioning) :
    take m source false false = beginTransition m source := by
  unfold take
  rw [if_neg (by simp)]
  rw [if_pos (by simp [h])]
  rw [if_neg (by simp)]

/-! ## Behaviour of the playback event handlers -/
theorem pyInt_intCast (v : Int) : pyInt ((v : Int) : Rat) = v := by
  unfold pyInt
  by_cases hv : ((v : Int) : Rat) < 0
  · rw [if_pos hv, ← Int.cast_neg, Int.floor_intCast]
    omega
  · rw [if_neg hv, Int.floor_intCast]

theorem onIndexEvent_spec (pars : SourcePars) (sources : List SourceRec)
    (gtt : Rat) (ni : Int) (mr : Rat) (st : PlaybackState) (val : Rat) (t : Rat)
    (hActive : pars.active = true)
    (hdone : pars.doneonfile = "play_n_times")
    (hsr : 0 < st.sampleRate)
    (ht : getTransitionTimeForFollowAction pars sources gtt = some t) :
    ∃ st' fired,
      onFileValueChange pars sources gtt ni mr true st FileChannel.idx val
        = some (st', fired)
      ∧ st'.currentFrame = pyInt val
      ∧ st'.totalFrames = st.totalFrames
      ∧ st'.loopCount = st.loopCount
      ∧ st'.doneTriggered = (st.doneTriggered || fired)
      ∧ (fired = true ↔
          (st.doneTriggered = false
           ∧ st.loopCount ≥ pars.playntimes - 1
           ∧ 0 < st.totalFrames - 1 - pyInt val
           ∧ ((st.totalFrames - 1 - pyInt val : Int) : Rat) ≤ t * st.sampleRate)) := by
  unfold onFileValueChange
  rw [if_neg (by simp)]
  rw [if_neg (by simp [hActive])]
  dsimp only
  rw [if_neg (by simp [hdone])]
  by_cases hdt : st.doneTriggered = true
  · rw [if_pos hdt]
    refine ⟨_, false, rfl, rfl, rfl, rfl, by simp [hdt], ?_⟩
    simp [hdt]
  · rw [if_neg hdt]
    rw [ht]
    dsimp only
    by_cases htle : t ≤ 0
    · rw [if_pos htle]
      refine ⟨_, false, rfl, rfl, rfl, rfl, by simp, ?_⟩
      constructor
      · intro h; exact absurd h (by simp)
      · rintro ⟨-, -, hfr, hle⟩
        exfalso
        have hts : t * st.sampleRate ≤ 0 :=
          mul_nonpos_iff.mpr (Or.inr ⟨htle, hsr.le⟩)
        have hc : (0 : Rat) < ((st.totalFrames - 1 - pyInt val : Int) : Rat) := by
          exact_mod_cast hfr
        linarith
    · rw [if_neg htle]
      by_cases hcond : st.loopCount ≥ pars.playntimes - 1
          ∧ max 0 (st.totalFrames - 1 - pyInt val) > 0
          ∧ ((max 0 (st.totalFrames - 1 - pyInt val) : Int) : Rat) ≤ t * st.sampleRate
      · rw [if_pos hcond]
        refine ⟨_, true, rfl, rfl, rfl, rfl, by simp, ?_⟩
        obtain ⟨hc1, hc2, hc3⟩ := hcond
        have hmax : max 0 (st.totalFrames - 1 - pyInt val)
            = st.totalFrames - 1 - pyInt val := by omega
        rw [hmax] at hc3
        constructor
        · intro _
          exact ⟨by simpa using hdt, hc1, by omega, hc3⟩
        · intro _
          rfl
      · rw [if_neg hcond]
        refine ⟨_, false, rfl, rfl, rfl, rfl, by simp, ?_⟩
        constructor
        · intro h; exact absurd h (by simp)
        · rintro ⟨-, hc1, hc2, hc3⟩
          exfalso
          refine hcond ⟨hc1, by omega, ?_⟩
          have hmax : max 0 (st.totalFrames - 1 - pyInt val)
              = st.totalFrames - 1 - pyInt val := by omega
          rw [hmax]
          exact hc3

theorem onLastFrameEvent_spec (pars : SourcePars) (sources : List SourceRec)
    (gtt : Rat) (ni : Int) (mr : Rat) (st : PlaybackState) (val : Rat)
    (hActive : pars.active = true) :
    ∃ st' fired,
      onFileValueChange pars sources gtt ni mr true st FileChannel.lastFrame val
        = some (st', fired)
      ∧ st'.lastFrameState = val
      ∧ (val = 1 ∧ st.lastFrameState = 0 →
          st'.loopCount = st.loopCount + 1
          ∧ st'.loopsRemaining = max 0 (pars.playntimes - (st.loopCount + 1))
          ∧ (fired = true ↔ (pars.doneonfile = "play_n_times"
              ∧ st.doneTriggered = false
              ∧ st.loopCount + 1 ≥ pars.playntimes)))
      ∧ (¬(val = 1 ∧ st.lastFrameState = 0) →
          st'.loopCount = st.loopCount ∧ st'.loopsRemaining = st.loopsRemaining
          ∧ fired = false)
      ∧ st'.doneTriggered = (st.doneTriggered || fired) := by
  unfold onFileValueChange
  rw [if_neg (by simp)]
  rw [if_neg (by simp [hActive])]
  dsimp only
  by_cases hedge : val = 1 ∧ st.lastFrameState = 0
  · rw [if_pos hedge]
    by_cases hfire : pars.doneonfile = "play_n_times"
        ∧ ¬st.doneTriggered = true ∧ st.loopCount + 1 ≥ pars.playntimes
    · rw [if_pos hfire]
      refine ⟨_, true, rfl, rfl, ?_, fun hc => absurd hedge hc, by simp⟩
      intro _
      refine ⟨rfl, rfl, ?_⟩
      simp only [true_iff]
      exact ⟨hfire.1, by simpa using hfire.2.1, hfire.2.2⟩
    · rw [if_neg hfire]
      refine ⟨_, false, rfl, rfl, ?_, fun hc => absurd hedge hc, by simp⟩
      intro _
      refine ⟨rfl, rfl, ?_⟩
      constructor
      · intro h; exact absurd h (by simp)
      · rintro ⟨h1, h2, h3⟩
        exact absurd ⟨h1, by simp [h2], h3⟩ hfire
  · rw [if_neg hedge]
    exact ⟨_, false, rfl, rfl, fun hc => absurd hc hedge, fun _ => ⟨rfl, rfl, rfl⟩, by simp⟩

theorem runLastFrames_loopCount (pars : SourcePars) (sources : List SourceRec)
    (gtt : Rat) (ni : Int) (mr : Rat) (hActive : pars.active = true) :
    ∀ (vals : List Rat) (st : PlaybackState),
      (runLastFrames pars sources gtt ni mr true st vals).1.loopCount
        = st.loopCount + (countRisingEdges st.lastFrameState vals : Int) := by
  intro vals
  induction vals with
  | nil => intro st; simp [runLastFrames, countRisingEdges]
  | cons v vs ih =>
    intro st
    obtain ⟨st', fired, heq, hlfs, hedge, hnedge, -⟩ :=
      onLastFrameEvent_spec pars sources gtt ni mr st v hActive
    unfold runLastFrames
    rw [heq]
    dsimp only
    rw [ih st']
    have hcre : countRisingEdges st.lastFrameState (v :: vs)
        = (if v = 1 ∧ st.lastFrameState = 0 then 1 else 0) + countRisingEdges v vs := rfl
    rw [hcre]
    by_cases he : v = 1 ∧ st.lastFrameState = 0
    · obtain ⟨hlc, -, -⟩ := hedge he
      rw [hlc, hlfs, if_pos he]
      push_cast
      ring
    · obtain ⟨hlc, -, -⟩ := hnedge he
      rw [hlc, hlfs, if_neg he]
      push_cast
      ring

theorem startPlayback_resets (pars : SourcePars) (st : PlaybackState) :
    (startPlayback pars st).doneTriggered = false
    ∧ (startPlayback pars st).loopCount = 0
    ∧ (startPlayback pars st).lastFrameState = 0
    ∧ (startPlayback pars st).currentFrame = 0
    ∧ (startPlayback pars st).loopsRemaining = max 0 (pars.playntimes - 1) := by
  unfold startPlayback
  split_ifs <;> exact ⟨rfl, rfl, rfl, rfl, rfl⟩

/-! ## Behaviour of the progress display -/
theorem fileProgressPct_eq (pars : SourcePars) (st : PlaybackState) :
    (st.totalFrames * pars.playntimes > 1 →
      fileProgressPct pars st
        = ((st.loopCount * st.totalFrames + st.currentFrame : Int) : Rat)
            / (((st.totalFrames * pars.playntimes : Int) : Rat) - 1) * 100)
    ∧ (st.totalFrames * pars.playntimes = 1 → fileProgressPct pars st = 100)
    ∧ (st.totalFrames * pars.playntimes < 1 → fileProgressPct pars st = 0) := by
  refine ⟨?_, ?_, ?_⟩
  · intro h
    unfold fileProgressPct
    rw [if_pos h]
  · intro h
    unfold fileProgressPct
    rw [if_neg (by omega), if_pos h]
  · intro h
    unfold fileProgressPct
    rw [if_neg (by omega), if_neg (by omega)]

/-! ## Characterisation of `_getSource` lookups -/
theorem getSource_byData (sources : List SourceRec) (d : SourceRec) :
    getSource sources (SourceRef.byData d) = some ⟨some d, some (-1), some d.name⟩ := rfl

theorem getSource_byIndex_oob (sources : List SourceRec) (i : Int)
    (h : (sources.length : Int) ≤ i) :
    getSource sources (SourceRef.byIndex i) = some ⟨none, some i, none⟩ := by
  unfold getSource
  dsimp only
  rw [if_neg (by omega)]

theorem getSource_byIndex_inRange (sources : List SourceRec) (i : Int) (d : SourceRec)
    (h0 : 0 ≤ i) (h1 : i < (sources.length : Int))
    (hd : sources.get? i.toNat = some d) :
    getSource sources (SourceRef.byIndex i) = some ⟨some d, some i, some d.name⟩ := by
  have hget : pyListGet sources i = some d := by
    unfold pyListGet pyResolveIdx
    rw [if_pos ⟨h0, h1⟩]
    simpa using hd
  unfold getSource
  dsimp only
  rw [if_pos (by omega), hget]

theorem getSource_byIndex_negWrap (sources : List SourceRec) (i : Int) (d : SourceRec)
    (hneg : i < 0) (hge : 0 ≤ (sources.length : Int) + i)
    (hd : sources.get? ((sources.length : Int) + i).toNat = some d) :
    getSource sources (SourceRef.byIndex i) = some ⟨some d, some i, some d.name⟩ := by
  have hget : pyListGet sources i = some d := by
    unfold pyListGet pyResolveIdx
    rw [if_neg (by omega), if_pos ⟨hneg, hge⟩]
    simpa using hd
  unfold getSource
  dsimp only
  rw [if_pos (by omega), hget]

theorem getSource_byIndex_raise (sources : List SourceRec) (i : Int)
    (h : (sources.length : Int) + i < 0) :
    getSource sources (SourceRef.byIndex i) = none := by
  have hget : pyListGet sources i = none := by
    unfold pyListGet pyResolveIdx
    rw [if_neg (by omega), if_neg (by omega)]
    rfl
  unfold getSource
  dsimp only
  rw [if_pos (by omega), hget]

theorem getSource_byName_notFound (sources : List SourceRec) (n : String)
    (h : n ∉ namesOf sources) :
    getSource sources (SourceRef.byName n) = some ⟨none, none, none⟩ := by
  unfold getSource
  dsimp only
  rw [if_neg (by simpa [namesOf] using h)]

theorem onFileValueChange_latched (pars : SourcePars) (sources : List SourceRec)
    (gtt : Rat) (ni : Int) (mr : Rat) (isLive : Bool) (st : PlaybackState)
    (ch : FileChannel) (val : Rat) (st' : PlaybackState) (fired : Bool)
    (hdone : st.doneTriggered = true)
    (h : onFileValueChange pars sources gtt ni mr isLive st ch val = some (st', fired)) :
    fired = false ∧ st'.doneTriggered = true := by
  cases ch <;> unfold onFileValueChange at h <;>
    simp only [hdone, reduceCtorEq, or_self, or_false, false_or, if_false, ite_true,
      ite_false, not_true, false_and, and_false, if_true, Bool.not_true] at h <;>
    split_ifs at h <;>
    simp only [Option.some.injEq, Prod.mk.injEq] at h <;>
    obtain ⟨h1, h2⟩ := h <;> subst h1 <;> subst h2 <;>
    first
    | exact ⟨rfl, rfl⟩
    | exact ⟨rfl, hdone⟩

theorem applyRegOps_nodupNames (ops : List RegOp) :
    ∀ (r r' : Registry), nodupNames r.sources → runOk r ops →
      applyRegOps r ops = some r' → nodupNames r'.sources := by
  induction ops with
  | nil =>
    intro r r' h _ hr
    unfold applyRegOps at hr
    injection hr with hr
    subst hr
    exact h
  | cons op ops ih =>
    intro r r' h hok hr
    unfold applyRegOps at hr
    cases hmid : applyRegOp r op with
    | none => rw [hmid] at hr; simp at hr
    | some rm =>
      rw [hmid] at hr
      simp only [Option.some_bind] at hr
      exact ih rm r' (applyRegOp_nodupNames r rm op h hok.1 hmid) (hok.2 rm hmid) hr

/-! ## Totality of the registry operations under the Import side condition -/

/-! ## Claim theorems -/
/-- C1: for a PlayNTimes file source that is not yet done, a telemetry
`index` event marks the source Done (setting the latch and firing the
follow action) exactly when `framesRemaining = totalFrames - 1 - currentFrame`
satisfies `0 < framesRemaining ≤ transitionTimeSeconds * sampleRate`, where
the transition time is the follow-action target's effective one. -/
theorem c1_early_trigger_exact (pars : SourcePars) (sources : List SourceRec)
    (gtt : Rat) (ni : Int) (mr : Rat) (st : PlaybackState) (val : Rat) (t : Rat)
    (hActive : pars.active = true)
    (hmode : pars.doneonfile = "play_n_times")
    (hnotdone : st.doneTriggered = false)
    (hfinal : st.loopCount ≥ pars.playntimes - 1)
    (hsr : 0 < st.sampleRate)
    (ht : getTransitionTimeForFollowAction pars sources gtt = some t) :
    ∃ st' fired,
      onFileValueChange pars sources gtt ni mr true st FileChannel.idx val
        = some (st', fired)
      ∧ st'.currentFrame = pyInt val
      ∧ st'.doneTriggered = fired
      ∧ (fired = true ↔
          (0 < st.totalFrames - 1 - pyInt val
           ∧ ((st.totalFrames - 1 - pyInt val : Int) : Rat) ≤ t * st.sampleRate)) := by
  obtain ⟨st', fired, heq, hcf, -, -, hdt, hiff⟩ :=
    onIndexEvent_spec pars sources gtt ni mr st val t hActive hmode hsr ht
  refine ⟨st', fired, heq, hcf, ?_, ?_⟩
  · rw [hdt, hnotdone, Bool.false_or]
  · rw [hiff]
    constructor
    · rintro ⟨-, -, h3, h4⟩
      exact ⟨h3, h4⟩
    · rintro ⟨h3, h4⟩
      exact ⟨hnotdone, hfinal, h3, h4⟩

theorem c1_witness :
    ∃ st' fired,
      onFileValueChange parsC1 [recT1] 0 0 0 true stC1 FileChannel.idx 70
        = some (st', fired)
      ∧ st'.currentFrame = pyInt 70
      ∧ st'.doneTriggered = fired
      ∧ (fired = true ↔
          (0 < stC1.totalFrames - 1 - pyInt 70
           ∧ ((stC1.totalFrames - 1 - pyInt 70 : Int) : Rat) ≤ 1 * stC1.sampleRate)) :=
  c1_early_trigger_exact parsC1 [recT1] 0 0 0 stC1 70 1 rfl rfl rfl (by decide)
    (by decide) (by decide)

/-- C3: index tracking under Delete and Move: for a valid ActiveIndex,
`DeleteSource` degrades ActiveIndex to `-1` exactly when the active record
is deleted and keeps it denoting the same record otherwise, and re-selects
at the deletion point, decremented exactly when the last position was
deleted (the clamp to the new end); `MoveSource` retargets the selection to
the moved record and keeps ActiveIndex on the same logical record, both
when the active record is the one moved (ActiveIndex follows it to the
landing slot) and when the move crosses it; `MoveSourceUp`/`MoveSourceDown`
move the selected record while leaving ActiveIndex untouched (so the spec's
"still denotes the same logical record" fails for them; see the
counterexample). -/
theorem c3_delete_move_index_tracking :
    (∀ r r', 2 ≤ r.sources.length → 0 ≤ r.selectedIndex →
        r.selectedIndex < (r.sources.length : Int) → deleteSource r = some r' →
        (r.activeIndex = r.selectedIndex → r'.activeIndex = -1)
        ∧ (0 ≤ r.activeIndex → r'.activeIndex = -1 → r.activeIndex = r.selectedIndex)
        ∧ (0 ≤ r.activeIndex → r.activeIndex < r.selectedIndex →
            r'.sources.get? r'.activeIndex.toNat = r.sources.get? r.activeIndex.toNat)
        ∧ (r.selectedIndex < r.activeIndex → r.activeIndex < (r.sources.length : Int) →
            r'.sources.get? r'.activeIndex.toNat = r.sources.get? r.activeIndex.toNat)
        ∧ r'.selectedIndex = (if r.selectedIndex = (r.sources.length : Int) - 1
            then r.selectedIndex - 1 else r.selectedIndex)
        ∧ 0 ≤ r'.selectedIndex ∧ r'.selectedIndex < (r'.sources.length : Int))
    ∧ (∀ r fromIndex toIndex, 0 ≤ fromIndex → fromIndex < (r.sources.length : Int) →
        (moveSource r fromIndex toIndex).sources.get?
            (moveSource r fromIndex toIndex).selectedIndex.toNat
          = r.sources.get? fromIndex.toNat
        ∧ (r.activeIndex = fromIndex →
            (moveSource r fromIndex toIndex).activeIndex
              = (moveSource r fromIndex toIndex).selectedIndex
            ∧ (moveSource r fromIndex toIndex).sources.get?
                (moveSource r fromIndex toIndex).activeIndex.toNat
              = r.sources.get? r.activeIndex.toNat)
        ∧ (r.activeIndex ≠ fromIndex → 0 ≤ r.activeIndex →
            r.activeIndex < (r.sources.length : Int) →
            (moveSource r fromIndex toIndex).sources.get?
                (moveSource r fromIndex toIndex).activeIndex.toNat
              = r.sources.get? r.activeIndex.toNat))
    ∧ (∀ r r', 0 < r.selectedIndex → r.selectedIndex < (r.sources.length : Int) →
        moveSourceUp r = some r' →
        r'.activeIndex = r.activeIndex ∧ r'.selectedIndex = r.selectedIndex - 1
        ∧ r'.sources.get? (r.selectedIndex - 1).toNat
            = r.sources.get? r.selectedIndex.toNat)
    ∧ (∀ r r', 0 ≤ r.selectedIndex → r.selectedIndex < (r.sources.length : Int) - 1 →
        moveSourceDown r = some r' →
        r'.activeIndex = r.activeIndex ∧ r'.selectedIndex = r.selectedIndex + 1
        ∧ r'.sources.get? (r.selectedIndex + 1).toNat
            = r.sources.get? r.selectedIndex.toNat) := by
  refine ⟨?_, ?_, ?_, ?_⟩
  · intro r r' hlen hs0 hs1 hr
    obtain ⟨-, hact, hgt, hlt, hself, hb0, hb1⟩ :=
      deleteSource_tracking r r' hlen hs0 hs1 hr
    refine ⟨hact, ?_, fun h0 h2 => (hlt h0 h2).2, fun h0 h2 => (hgt (by omega)).2 h2,
      hself, hb0, hb1⟩
    intro h0 hneg
    by_contra hne
    rcases lt_or_gt_of_ne hne with hltc | hgtc
    · have := (hlt h0 hltc).1
      omega
    · have := (hgt hgtc).1
      omega
  · intro r fromIndex toIndex hf0 hf1
    obtain ⟨-, hselGet, hfollow, hactGet⟩ :=
      moveSource_tracking r fromIndex toIndex hf0 hf1
    refine ⟨hselGet, ?_, hactGet⟩
    intro ha
    refine ⟨hfollow ha, ?_⟩
    rw [hfollow ha, ha]
    exact hselGet
  · intro r r' hs0 hs1 hr
    obtain ⟨ha, -, hsel, hget⟩ := moveSourceUp_tracking r r' hs0 hs1 hr
    exact ⟨ha, hsel, hget⟩
  · intro r r' hs0 hs1 hr
    obtain ⟨ha, -, hsel, hget⟩ := moveSourceDown_tracking r r' hs0 hs1 hr
    exact ⟨ha, hsel, hget⟩

theorem c3_witness :
    rC3dOut.sources.get? rC3dOut.activeIndex.toNat
      = rC3d.sources.get? rC3d.activeIndex.toNat :=
  (c3_delete_move_index_tracking.1 rC3d rC3dOut (by decide) (by decide) (by decide)
    (by decide)).2.2.2.1 (by decide) (by decide)

/-- C3 counterexample: `MoveSourceUp` does not adjust ActiveIndex, so after
moving the selected record above the active one, ActiveIndex (still `1`,
not `-1`) denotes a different record than before. -/
theorem c3_counterexample :
    moveSourceUp rC3cx = some rC3cxOut
    ∧ rC3cxOut.activeIndex ≠ -1
    ∧ rC3cxOut.activeIndex = rC3cx.activeIndex
    ∧ rC3cxOut.sources.get? rC3cxOut.activeIndex.toNat
        ≠ rC3cx.sources.get? rC3cx.activeIndex.toNat := by decide

/-- C4: contrary to the spec, no insert operation adjusts ActiveIndex:
`_addSource` (hence `AddSource`), `CopySource` and `PasteSourceData` all
leave ActiveIndex and ActiveName exactly as they were, even when the
insertion point lies at or below the active record. -/
theorem c4_inserts_do_not_adjust_active :
    (∀ r source_data source_type source_path source_name template,
        (addSource r source_data source_type source_path source_name
          template).activeIndex = r.activeIndex
        ∧ (addSource r source_data source_type source_path source_name
            template).activeName = r.activeName)
    ∧ (∀ r r', copySource r = some r' →
        r'.activeIndex = r.activeIndex ∧ r'.activeName = r.activeName)
    ∧ (∀ r index data, (pasteSourceData r index data).activeIndex = r.activeIndex
        ∧ (pasteSourceData r index data).activeName = r.activeName) := by
  refine ⟨fun r sd st sp sn tpl => ⟨rfl, rfl⟩, ?_, fun r i d => ?_⟩
  · intro r r' hr
    unfold copySource at hr
    simp only [Option.bind_eq_bind] at hr
    rw [Option.bind_eq_some] at hr
    obtain ⟨src, hget, hr⟩ := hr
    simp only [pure, Option.some.injEq] at hr
    subst hr
    exact ⟨rfl, rfl⟩
  · cases d with
    | none => exact ⟨rfl, rfl⟩
    | some d => exact ⟨rfl, rfl⟩

theorem c4_witness :
    rC4out.activeIndex = rC4.activeIndex ∧ rC4out.activeName = rC4.activeName :=
  c4_inserts_do_not_adjust_active.2.1 rC4 rC4out (by decide)

/-- C4 counterexample: inserting at position `1 ≤ ActiveIndex = 1` leaves
ActiveIndex at `1`, which now denotes the freshly inserted record instead
of the active one. -/
theorem c4_counterexample :
    rC4cx.activeIndex = 1
    ∧ (addSource rC4cx none none none (some "C") (mkRec "X")).activeIndex = 1
    ∧ (addSource rC4cx none none none (some "C") (mkRec "X")).sources.get? 1
        = some (mkRec "C") := by decide

/-- C5: `Take(ref, force)` dispatch: `force` clears the queue and begins at
once; Idle begins at once; Transitioning with queueing enabled appends
unless the queue's last element already equals the request (consecutive
dedup only); Transitioning with queueing disabled begins at once. -/
theorem c5_take_dispatch :
    (∀ m source queueEnabled, take m source true queueEnabled
        = beginTransition { m with pendingQueue := [] } source)
    ∧ (∀ m source queueEnabled, m.phase = Phase.idle →
        take m source false queueEnabled = beginTransition m source)
    ∧ (∀ m source, m.phase = Phase.transitioning →
        (m.pendingQueue = [] ∨ m.pendingQueue.getLast? ≠ some source) →
        take m source false true
          = some { m with pendingQueue := m.pendingQueue ++ [source] })
    ∧ (∀ m source, m.phase = Phase.transitioning →
        m.pendingQueue.getLast? = some source → take m source false true = some m)
    ∧ (∀ m source, m.phase = Phase.transitioning →
        take m source false false = beginTransition m source) :=
  ⟨fun m s q => take_force m s q,
   fun m s q h => take_idle m s q h,
   fun m s h hq => take_queue_append m s h hq,
   fun m s h hq => take_queue_dedup m s h hq,
   fun m s h => take_no_queue m s h⟩

theorem c5_witness :
    take mC5 (SourceRef.byIndex 1) false true
      = some { mC5 with pendingQueue := mC5.pendingQueue ++ [SourceRef.byIndex 1] } :=
  c5_take_dispatch.2.2.1 mC5 (SourceRef.byIndex 1) (by decide) (by decide)

/-- C6: the play-n-times percent-complete is
`(loopCount*totalFrames + currentFrame) / (totalFrames*playNTimes - 1) * 100`
with the degenerate `totalFrames*playNTimes = 1` case pinned to `100`, and
the displayed value is that quantity rounded to two decimals — with no
clamping anywhere (see the counterexample exceeding 100). -/
theorem c6_progress_formula (pars : SourcePars) (st : PlaybackState) :
    fileProgressDisplayed pars st = pyRound2 (fileProgressPct pars st)
    ∧ (st.totalFrames * pars.playntimes > 1 →
        fileProgressPct pars st
          = ((st.loopCount * st.totalFrames + st.currentFrame : Int) : Rat)
              / (((st.totalFrames * pars.playntimes : Int) : Rat) - 1) * 100)
    ∧ (st.totalFrames * pars.playntimes = 1 → fileProgressPct pars st = 100)
    ∧ (st.totalFrames * pars.playntimes < 1 → fileProgressPct pars st = 0) :=
  ⟨rfl, (fileProgressPct_eq pars st).1, (fileProgressPct_eq pars st).2.1,
   (fileProgressPct_eq pars st).2.2⟩

theorem c6_witness :
    fileProgressPct parsC6 stC6
      = ((stC6.loopCount * stC6.totalFrames + stC6.currentFrame : Int) : Rat)
          / (((stC6.totalFrames * parsC6.playntimes : Int) : Rat) - 1) * 100 :=
  (c6_progress_formula parsC6 stC6).2.1 (by decide)

/-- C6 counterexample: with `totalFrames = 100`, `playNTimes = 1`,
`loopCount = 1`, `currentFrame = 99` the computed percentage is
`19900/99 > 100`: nothing clamps the value to `[0, 100]`. -/
theorem c6_counterexample : 100 < fileProgressPct parsC6cx stC6cx := by
  have h := (fileProgressPct_eq parsC6cx stC6cx).1 (by decide)
  rw [h]
  norm_num [parsC6cx, stC6cx]

/-- C7: `_getSource` lookup behaviour: record dicts pass through (index
`-1`); an unknown name and an index `≥ len` yield the not-found triple; but
a negative index wraps Python-style into the list when `-len ≤ i < 0` and
raises (`none`) when `len + i < 0` — so negative indices are NOT uniformly
"not found" as the spec states (see the counterexample). -/
theorem c7_lookup_characterisation :
    (∀ sources d, getSource sources (SourceRef.byData d)
        = some ⟨some d, some (-1), some d.name⟩)
    ∧ (∀ sources n, n ∉ namesOf sources →
        getSource sources (SourceRef.byName n) = some ⟨none, none, none⟩)
    ∧ (∀ sources i, (sources.length : Int) ≤ i →
        getSource sources (SourceRef.byIndex i) = some ⟨none, some i, none⟩)
    ∧ (∀ sources i d, 0 ≤ i → i < (sources.length : Int) →
        sources.get? i.toNat = some d →
        getSource sources (SourceRef.byIndex i) = some ⟨some d, some i, some d.name⟩)
    ∧ (∀ sources i d, i < 0 → 0 ≤ (sources.length : Int) + i →
        sources.get? ((sources.length : Int) + i).toNat = some d →
        getSource sources (SourceRef.byIndex i) = some ⟨some d, some i, some d.name⟩)
    ∧ (∀ sources i, (sources.length : Int) + i < 0 →
        getSource sources (SourceRef.byIndex i) = none) :=
  ⟨getSource_byData, getSource_byName_notFound, getSource_byIndex_oob,
   getSource_byIndex_inRange, getSource_byIndex_negWrap, getSource_byIndex_raise⟩

theorem c7_witness :
    getSource [mkRec "A", mkRec "B"] (SourceRef.byIndex 3)
      = some ⟨none, some 3, none⟩ :=
  c7_lookup_characterisation.2.2.1 [mkRec "A", mkRec "B"] 3 (by decide)

/-- C7 counterexample: on a one-record registry, index `-1` wraps around
and returns the record (not the not-found triple), and index `-2` raises
`IndexError` (modelled `none`) instead of returning not-found. -/
theorem c7_counterexample :
    getSource [mkRec "A"] (SourceRef.byIndex (-1))
        = some ⟨some (mkRec "A"), some (-1), some "A"⟩
    ∧ getSource [mkRec "A"] (SourceRef.byIndex (-2)) = none := by decide

/-- C8: the `doneTriggered` latch makes the telemetry done paths (loop-count
edge and early trigger inside `onFileValueChange`) fire at most once per
playthrough, and `Start()` resets the latch; but the done-timer completion
and the external done pulse call `_handleFollowAction` unconditionally —
they do not consult the latch at all (see the counterexample), so "at most
one follow-action resolution across ALL done paths" fails. -/
theorem c8_done_latch :
    (∀ pars sources gtt ni mr isLive st ch val st' fired,
        st.doneTriggered = true →
        onFileValueChange pars sources gtt ni mr isLive st ch val = some (st', fired) →
        fired = false ∧ st'.doneTriggered = true)
    ∧ (∀ pars st, (startPlayback pars st).doneTriggered = false)
    ∧ (∀ pars activeIndex isLive,
        onDoneTimerDone pars activeIndex isLive
            = handleFollowAction pars activeIndex isLive
        ∧ pulseDonePulseFile pars activeIndex isLive
            = handleFollowAction pars activeIndex isLive) :=
  ⟨fun pars sources gtt ni mr isLive st ch val st' fired hdone h =>
      onFileValueChange_latched pars sources gtt ni mr isLive st ch val st' fired hdone h,
   fun pars st => (startPlayback_resets pars st).1,
   fun _ _ _ => ⟨rfl, rfl⟩⟩

theorem c8_witness : false = false ∧ stC8out.doneTriggered = true :=
  c8_done_latch.1 parsC8 [] 0 0 0 true stC8 FileChannel.lastFrame 1 stC8out false
    rfl (by decide)

/-- C8 counterexample: with the latch already set (`doneTriggered = true`),
the done-timer path and the external done pulse still resolve the follow
action — these paths take no playback state and cannot observe the latch. -/
theorem c8_counterexample :
    stC8.doneTriggered = true
    ∧ onDoneTimerDone parsC8 0 true = some (SourceRef.byIndex 1)
    ∧ pulseDonePulseFile parsC8 0 true = some (SourceRef.byIndex 1) := by decide

/-- C9: `last_frame` events are edge-triggered: a single event increments
`loopCount` exactly when its value is `1.0` and the stored previous state
is `0` (and then `loopsRemaining = max 0 (playNTimes - loopCount)`), and
over any event stream the total increment equals the number of rising
edges — a channel held at `1.0` counts once. -/
theorem c9_loop_edge_counting :
    (∀ pars sources gtt ni mr st val, pars.active = true →
      ∃ st' fired,
        onFileValueChange pars sources gtt ni mr true st FileChannel.lastFrame val
          = some (st', fired)
        ∧ st'.lastFrameState = val
        ∧ (val = 1 ∧ st.lastFrameState = 0 →
            st'.loopCount = st.loopCount + 1
            ∧ st'.loopsRemaining = max 0 (pars.playntimes - st'.loopCount))
        ∧ (¬(val = 1 ∧ st.lastFrameState = 0) →
            st'.loopCount = st.loopCount ∧ st'.loopsRemaining = st.loopsRemaining))
    ∧ (∀ pars sources gtt ni mr vals st, pars.active = true →
        (runLastFrames pars sources gtt ni mr true st vals).1.loopCount
          = st.loopCount + (countRisingEdges st.lastFrameState vals : Int)) := by
  constructor
  · intro pars sources gtt ni mr st val hA
    obtain ⟨st', fired, heq, hlfs, hedge, hnedge, -⟩ :=
      onLastFrameEvent_spec pars sources gtt ni mr st val hA
    refine ⟨st', fired, heq, hlfs, ?_, fun h => ⟨(hnedge h).1, (hnedge h).2.1⟩⟩
    intro he
    obtain ⟨hlc, hlr, -⟩ := hedge he
    exact ⟨hlc, by rw [hlr, hlc]⟩
  · intro pars sources gtt ni mr vals st hA
    exact runLastFrames_loopCount pars sources gtt ni mr hA vals st

theorem c9_witness :
    (runLastFrames parsC9 [] 0 0 0 true stC9 [1, 1, 0, 1]).1.loopCount
      = stC9.loopCount + (countRisingEdges stC9.lastFrameState [1, 1, 0, 1] : Int) :=
  c9_loop_edge_counting.2 parsC9 [] 0 0 0 [1, 1, 0, 1] stC9 rfl

/-- C10: `SkipToLastPending` reduces a queue of two or more requests to
exactly its former last element, leaves shorter queues (empty or singleton)
unchanged, and never alters the phase, the registry, the A/B state or the
active-source mirror. -/
theorem c10_skip_to_last_pending (m : Machine) :
    (∀ last, 2 ≤ m.pendingQueue.length → m.pendingQueue.getLast? = some last →
        skipToLastPending m = { m with pendingQueue := [last] })
    ∧ (m.pendingQueue.length ≤ 1 → skipToLastPending m = m)
    ∧ (skipToLastPending m).phase = m.phase
    ∧ (skipToLastPending m).sources = m.sources
    ∧ (skipToLastPending m).state = m.state
    ∧ (skipToLastPending m).activeIndex = m.activeIndex
    ∧ (skipToLastPending m).activeName = m.activeName := by
  refine ⟨?_, ?_, ?_, ?_, ?_, ?_, ?_⟩
  · intro last hlen hlast
    unfold skipToLastPending
    rw [if_pos (by omega), hlast]
  · intro hlen
    unfold skipToLastPending
    rw [if_neg (by omega)]
  all_goals
    unfold skipToLastPending
    split
    · split <;> rfl
    · rfl

theorem c10_witness :
    skipToLastPending mC10 = { mC10 with pendingQueue := [SourceRef.byIndex 2] } :=
  (c10_skip_to_last_pending mC10).1 (SourceRef.byIndex 2) (by decide) (by decide)
